import Mathlib

/-! charmy: the A2A provider client and the terminal UI update function

A shallow embedding of

* `internal/llm/provider/a2a/a2a.go` (`Client.Call`, `Client.Generate`, `Error.Error`),
* `internal/llm/models/models.go` and `internal/llm/models/a2a.go` (the model registry),
* `internal/tui/events.go` (`AppModel.Update`) with the state of `internal/tui/state/state.go`,

followed by theorems about them.

Conventions of the embedding.

* A Go `(value, error)` result of which exactly one side is non-nil is an `Except`:
  `Except.error e` is `(nil, e)` and `Except.ok v` is `(v, nil)`.
* The network, the clock and the context are an explicit `World`; what the client did to them
  is recorded in an explicit `St` (requests sent, timer waits completed, clock).
* The unbounded `for` loop of `Generate` takes a fuel argument that bounds the number of
  polls; `none` means the fuel ran out, never a result of the Go code.
-/

set_option linter.dupNamespace false

namespace A2A

/-! ## Data model of `a2a.go` -/

/-- A decoded JSON document: the dynamic content of a Go `interface{}` as encoding/json fills
it (`nil`, `bool`, `float64`, `string`, `[]interface{}`, `map[string]interface{}`). The code
never inspects a number, so a number is carried as its raw bits. A map is an association
list read by `mapIndex`. -/
inductive JValue where
  | null
  | bool (b : Bool)
  | num (bits : Nat)
  | str (s : String)
  | arr (items : List JValue)
  | obj (fields : List (String × JValue))

/-- Go map indexing `m[key]` on a `map[string]interface{}`: the stored value, or the zero
value `nil` when the key is absent. -/
def mapIndex : List (String × JValue) → String → JValue
  | [], _ => JValue.null
  | (k, v) :: rest, key => if k = key then v else mapIndex rest key

/-- The struct `Error` (a JSON-RPC 2.0 error object). -/
structure Error where
  Code : Int
  Message : String
  Data : JValue

/-- The method `(*Error).Error`: `fmt.Sprintf("jsonrpc: code %d, message: %s", ...)`. -/
def Error.Error (e : Error) : String :=
  "jsonrpc: code " ++ toString e.Code ++ ", message: " ++ e.Message

/-- The struct `JSONRPCRequest`. -/
structure JSONRPCRequest where
  JSONRPC : String
  Method : String
  Params : JValue
  ID : Int

/-- The struct `JSONRPCResponse`; a nil `*Error` is `none`. -/
structure JSONRPCResponse where
  JSONRPC : String
  Result : JValue
  Error : Option Error
  ID : Int

/-- The two values `ctx.Err()` can return once the context is done. -/
inductive CtxError where
  | Canceled
  | DeadlineExceeded
  deriving DecidableEq

/-- Go error values, one constructor per dynamic type that `a2a.go` can return.
`errorString` is what `fmt.Errorf` yields for a format without `%w` (the message is the
format applied to the arguments, both kept here); `wrapError` is what it yields for a format
with `%w` around `err`; `rpc` is a `*Error`; `ctx` is a value of `ctx.Err()`; `lib` is an
error produced inside encoding/json or net/http. -/
inductive GoError where
  | errorString (format : String) (args : List JValue)
  | wrapError (format : String) (err : GoError)
  | rpc (e : Error)
  | ctx (e : CtxError)
  | lib (text : String)

/-- The dynamic Go type of an error value: all a caller can branch on without reading the
message text. -/
inductive ErrorKind where
  | errorString
  | wrapError
  | rpc
  | ctx
  | lib
  deriving DecidableEq

/-- The dynamic type of an error value. -/
def GoError.kind : GoError → ErrorKind
  | GoError.errorString _ _ => ErrorKind.errorString
  | GoError.wrapError _ _ => ErrorKind.wrapError
  | GoError.rpc _ => ErrorKind.rpc
  | GoError.ctx _ => ErrorKind.ctx
  | GoError.lib _ => ErrorKind.lib

/-- The format string an error was built from, for the two `fmt.Errorf` shapes. -/
def GoError.format : GoError → Option String
  | GoError.errorString f _ => some f
  | GoError.wrapError f _ => some f
  | _ => none

/-- The struct `Client`; its `HTTP` field is the transport, part of the `World`. -/
structure Client where
  Endpoint : String

/-- An HTTP request as `Call` hands it to `c.HTTP.Do`. The body is the JSON encoding of the
envelope, kept as the envelope. -/
structure HTTPRequest where
  Method : String
  URL : String
  Header : List (String × String)
  Body : JSONRPCRequest

/-- What happens to one invocation of `Call`, stage by stage: `json.Marshal` fails,
`http.NewRequestWithContext` fails, `c.HTTP.Do` fails, decoding the body fails, or a
response is decoded. -/
inductive Exchange where
  | marshalFailed (e : GoError)
  | newRequestFailed (e : GoError)
  | sendFailed (e : GoError)
  | decodeFailed (e : GoError)
  | response (r : JSONRPCResponse)

/-- The environment of one run: the outcome and the duration of the k-th invocation of
`Call`, the instant at which the context is done (`none`: never) with the value `ctx.Err()`
then has, and how a `select` resolves when the context becomes done at the very instant the
timer fires. Time is in nanoseconds. The outcomes are not tied to `cancelAt`: a transport
that honours the context is a world whose exchange is `sendFailed` whenever the context
becomes done while that exchange is in flight. -/
structure World where
  exchange : Nat → Exchange
  latency : Nat → Nat
  cancelAt : Option Nat
  cause : CtxError
  tieToTimer : Bool

/-- What a run has done so far: the clock, the number of invocations of `Call`, the HTTP
requests handed to the transport (oldest first) and the timer waits that ran to their
end (their durations, oldest first). -/
structure St where
  now : Nat
  calls : Nat
  sent : List HTTPRequest
  waits : List Nat

/-- The Go constant `time.Second`, in nanoseconds. -/
def Second : Nat := 1000000000

/-- The part of `message.ContentPart` that `Generate` distinguishes: a `message.TextContent`
or any other part. -/
inductive ContentPart where
  | TextContent (Text : String)
  | other (tag : String)

/-- The part of `message.Message` that `Generate` reads. -/
structure Message where
  Parts : List ContentPart

/-- The part of `provider.ProviderResponse` that `Generate` fills. -/
structure ProviderResponse where
  Content : String

/-! ## `Client.Call` -/

/-- The envelope built at the top of `Call`. -/
def Call.envelope (method : String) (params : JValue) : JSONRPCRequest :=
  { JSONRPC := "2.0", Method := method, Params := params, ID := 1 }

/-- The HTTP request built by `http.NewRequestWithContext(ctx, "POST", c.Endpoint, body)`
followed by `httpReq.Header.Set("Content-Type", "application/json")`. -/
def Call.httpRequest (c : Client) (req : JSONRPCRequest) : HTTPRequest :=
  { Method := "POST", URL := c.Endpoint,
    Header := [("Content-Type", "application/json")], Body := req }

/-- The method `(*Client).Call`. -/
def Call (c : Client) (w : World) (s : St) (method : String) (params : JValue) :
    Except GoError JSONRPCResponse × St :=
  let req := Call.envelope method params
  let s1 : St := { s with calls := s.calls + 1 }
  match w.exchange s.calls with
  | Exchange.marshalFailed e =>
      (Except.error (GoError.wrapError "failed to marshal jsonrpc request: %w" e), s1)
  | Exchange.newRequestFailed e =>
      (Except.error (GoError.wrapError "failed to create http request: %w" e), s1)
  | Exchange.sendFailed e =>
      (Except.error (GoError.wrapError "failed to send http request: %w" e),
        { s1 with sent := s.sent ++ [Call.httpRequest c req], now := s.now + w.latency s.calls })
  | Exchange.decodeFailed e =>
      (Except.error (GoError.wrapError "failed to decode jsonrpc response: %w" e),
        { s1 with sent := s.sent ++ [Call.httpRequest c req], now := s.now + w.latency s.calls })
  | Exchange.response r =>
      let s2 : St :=
        { s1 with sent := s.sent ++ [Call.httpRequest c req], now := s.now + w.latency s.calls }
      match r.Error with
      | some e => (Except.error (GoError.rpc e), s2)
      | none => (Except.ok r, s2)

/-! ## `Client.Generate` -/

/-- The loop over `lastMessage.Parts`: the text of the first `TextContent` part, or the zero
value of `textContent` when there is none. -/
def firstText : List ContentPart → String
  | [] => ""
  | ContentPart.TextContent t :: _ => t
  | ContentPart.other _ :: rest => firstText rest

/-- The outcome of the `select` at the end of a loop iteration. -/
inductive Selected where
  | done (at_ : Nat)
  | timer (at_ : Nat)

/-- The statement `select { case <-ctx.Done(): ...; case <-time.After(1 * time.Second): }`
entered at instant `now`: the context branch when the context is done already or becomes
done before the timer fires, the timer branch otherwise. -/
def selectWait (w : World) (now : Nat) : Selected :=
  match w.cancelAt with
  | none => Selected.timer (now + 1 * Second)
  | some t =>
      if t ≤ now then Selected.done now
      else if t < now + 1 * Second then Selected.done t
      else if t = now + 1 * Second ∧ w.tieToTimer = false then Selected.done t
      else Selected.timer (now + 1 * Second)

/-- The params of the `task_get` call. -/
def taskGetParams (taskID : String) : JValue :=
  JValue.obj [("task_id", JValue.str taskID)]

/-- The `for` loop of `Generate`, run for at most `fuel` polls. -/
def pollLoop (c : Client) (w : World) (taskID : String) :
    Nat → St → Option (Except GoError ProviderResponse × St)
  | 0, _ => none
  | fuel + 1, s =>
    match Call c w s "task_get" (taskGetParams taskID) with
    | (Except.error err, s1) =>
        some (Except.error (GoError.wrapError "failed to get task: %w" err), s1)
    | (Except.ok taskResult, s1) =>
      match taskResult.Result with
      | JValue.obj task =>
        match mapIndex task "status" with
        | JValue.str status =>
          if status = "completed" then
            match mapIndex task "artifacts" with
            | JValue.arr (first :: _) =>
              match first with
              | JValue.obj firstArtifact =>
                match mapIndex firstArtifact "content" with
                | JValue.str content => some (Except.ok { Content := content }, s1)
                | _ =>
                  some (Except.error (GoError.errorString
                    "unexpected content format in artifact: %v" [JValue.obj firstArtifact]), s1)
              | _ =>
                some (Except.error (GoError.errorString
                  "unexpected artifact format: %v" [first]), s1)
            | _ =>
              some (Except.error (GoError.errorString
                "no artifacts in completed task: %v" [JValue.obj task]), s1)
          else if status = "failed" then
            some (Except.error (GoError.errorString "task failed: %v" [JValue.obj task]), s1)
          else
            match selectWait w s1.now with
            | Selected.done t => some (Except.error (GoError.ctx w.cause), { s1 with now := t })
            | Selected.timer t =>
                pollLoop c w taskID fuel
                  { s1 with now := t, waits := s1.waits ++ [1 * Second] }
        | _ =>
          some (Except.error (GoError.errorString
            "unexpected status in task: %v" [JValue.obj task]), s1)
      | v =>
        some (Except.error (GoError.errorString "unexpected result from task_get: %v" [v]), s1)

/-- The params of the `task_create` call. -/
def taskCreateParams (textContent : String) : JValue :=
  JValue.obj [("title", JValue.str "Generate response"),
              ("description", JValue.str textContent)]

/-- The method `(*Client).Generate`, started in state `s`, polling at most `fuel` times. -/
def Generate (c : Client) (w : World) (messages : List Message) (fuel : Nat) (s : St) :
    Option (Except GoError ProviderResponse × St) :=
  match messages.getLast? with
  | none => some (Except.error (GoError.errorString "no messages to generate from" []), s)
  | some lastMessage =>
    let textContent := firstText lastMessage.Parts
    match Call c w s "task_create" (taskCreateParams textContent) with
    | (Except.error err, s1) =>
        some (Except.error (GoError.wrapError "failed to create task: %w" err), s1)
    | (Except.ok resp, s1) =>
      match resp.Result with
      | JValue.str taskID => pollLoop c w taskID fuel s1
      | v =>
        some (Except.error (GoError.errorString
          "unexpected result from task_create: %v" [v]), s1)

/-! ## Vocabulary of the statements about `Generate` -/

/-- The state right after an invocation of `Call` that reached the transport. -/
def afterCall (c : Client) (w : World) (s : St) (method : String) (params : JValue) : St :=
  { now := s.now + w.latency s.calls, calls := s.calls + 1,
    sent := s.sent ++ [Call.httpRequest c (Call.envelope method params)], waits := s.waits }

/-- A successful reply: a decoded response without an error object. -/
def okReply (result : JValue) : Exchange :=
  Exchange.response { JSONRPC := "2.0", Result := result, Error := none, ID := 1 }

/-- The result `Call` returns for an exchange when it returns no error: the `Result` of a
decoded response that carries no error object. -/
def Exchange.result? : Exchange → Option JValue
  | Exchange.response r =>
    match r.Error with
    | none => some r.Result
    | some _ => none
  | _ => none

/-- A non-terminal poll: `task_get` returned an object whose status is a string other than
"completed" and "failed". -/
def Exchange.isPending (x : Exchange) : Bool :=
  match x.result? with
  | some (JValue.obj task) =>
    match mapIndex task "status" with
    | JValue.str status => status != "completed" && status != "failed"
    | _ => false
  | _ => false

/-- The text `Generate` takes from a message list: the first text part of the last message. -/
def lastText (messages : List Message) : String :=
  match messages.getLast? with
  | some lastMessage => firstText lastMessage.Parts
  | none => ""

/-- The HTTP request that carries the `task_create` call of `Generate`. -/
def createRequest (c : Client) (messages : List Message) : HTTPRequest :=
  Call.httpRequest c (Call.envelope "task_create" (taskCreateParams (lastText messages)))

/-- The HTTP request that carries a `task_get` call for `taskID`. -/
def getRequest (c : Client) (taskID : String) : HTTPRequest :=
  Call.httpRequest c (Call.envelope "task_get" (taskGetParams taskID))

/-- The state after one non-terminal poll and the full timer wait that follows it. -/
def afterPending (c : Client) (w : World) (taskID : String) (s : St) : St :=
  { now := s.now + w.latency s.calls + 1 * Second, calls := s.calls + 1,
    sent := s.sent ++ [getRequest c taskID], waits := s.waits ++ [1 * Second] }

/-- The state after `n` non-terminal polls, each followed by a full timer wait. -/
def afterPendings (c : Client) (w : World) (taskID : String) : Nat → St → St
  | 0, s => s
  | n + 1, s => afterPendings c w taskID n (afterPending c w taskID s)

/-- The state in which `Generate`, started in `s`, begins its poll number `n` (counted from
zero) when `task_create` succeeded and every earlier poll was non-terminal and waited out. -/
def atPoll (c : Client) (w : World) (messages : List Message) (s : St) (taskID : String)
    (n : Nat) : St :=
  afterPendings c w taskID n
    (afterCall c w s "task_create" (taskCreateParams (lastText messages)))

/-- The state in which `Generate` reaches the `select` after poll number `n`. -/
def atWait (c : Client) (w : World) (messages : List Message) (s : St) (taskID : String)
    (n : Nat) : St :=
  afterCall c w (atPoll c w messages s taskID n) "task_get" (taskGetParams taskID)

/-- The kind of the error a run returned, if it returned one. -/
def returnedKind : Option (Except GoError ProviderResponse × St) → Option ErrorKind
  | some (Except.error e, _) => some e.kind
  | _ => none

/-- Whether a value is a Go `string`. -/
def JValue.isStr : JValue → Bool
  | JValue.str _ => true
  | _ => false

/-- Whether a value is a Go `map[string]interface{}`. -/
def JValue.isObj : JValue → Bool
  | JValue.obj _ => true
  | _ => false

/-- Whether a value is the Go string `s`. -/
def JValue.isString (v : JValue) (s : String) : Bool :=
  match v with
  | JValue.str x => x == s
  | _ => false

/-- The value under `key` of a map; `nil` for an absent key or a value that is no map. -/
def JValue.field (v : JValue) (key : String) : JValue :=
  match v with
  | JValue.obj m => mapIndex m key
  | _ => JValue.null

/-- The first element of a non-empty `[]interface{}`. -/
def JValue.first? : JValue → Option JValue
  | JValue.arr (x :: _) => some x
  | _ => none

/-- A malformed `task_get` result: not an object, or its status is not a string, or it is
"completed" and its artifacts are missing, not a list or empty, or the first artifact is not
an object, or the content of the first artifact is not a string. -/
def malformedTask (v : JValue) : Bool :=
  !v.isObj || !(v.field "status").isStr ||
    ((v.field "status").isString "completed" &&
      match (v.field "artifacts").first? with
      | none => true
      | some first => !first.isObj || !(first.field "content").isStr)

/-- The formats of the errors `Generate` builds for a malformed `task_get` result. -/
def protocolFormats : List String :=
  ["unexpected result from task_get: %v", "unexpected status in task: %v",
   "no artifacts in completed task: %v", "unexpected artifact format: %v",
   "unexpected content format in artifact: %v"]

/-- A scripted agent: `task_create` is answered with "test-task-id", the first `task_get`
with a task in status "working", every later `task_get` with `final`. The context is done
at `cancelAt` (`none`: never); every exchange takes one millisecond. -/
def scriptedWorld (final : Exchange) (cancelAt : Option Nat) : World :=
  { exchange := fun k =>
      if k = 0 then okReply (JValue.str "test-task-id")
      else if k = 1 then okReply (JValue.obj [("status", JValue.str "working")])
      else final,
    latency := fun _ => 1000000, cancelAt := cancelAt, cause := CtxError.Canceled,
    tieToTimer := true }

/-- An agent that answers `task_create` with "test-task-id" and every `task_get` with
`reply`, under a context that is never done. -/
def immediateWorld (reply : Exchange) : World :=
  { exchange := fun k => if k = 0 then okReply (JValue.str "test-task-id") else reply,
    latency := fun _ => 0, cancelAt := none, cause := CtxError.Canceled, tieToTimer := true }

/-- An agent that answers every request with a response carrying both a result and the
error object with code -32000 and message "boom". -/
def errorObjectWorld : World :=
  { exchange := fun _ =>
      Exchange.response
        { JSONRPC := "2.0", Result := JValue.str "ignored",
          Error := some { Code := -32000, Message := "boom", Data := JValue.null }, ID := 1 },
    latency := fun _ => 0, cancelAt := none, cause := CtxError.Canceled, tieToTimer := true }

/-- The starting state of a run: clock at zero, nothing done. -/
def St.init : St := { now := 0, calls := 0, sent := [], waits := [] }

/-- The client of `TestGenerate`, pointed at the mock agent. -/
def testClient : Client := { Endpoint := "http://127.0.0.1:0" }

/-- The message list of `TestGenerate`: one message with one text part "Hello". -/
def testMessages : List Message := [{ Parts := [ContentPart.TextContent "Hello"] }]

/-- The task object the mock agent of `TestGenerate` returns for `task_get`. -/
def testTask : List (String × JValue) :=
  [("status", JValue.str "completed"),
   ("artifacts", JValue.arr [JValue.obj [("content", JValue.str "Hello, world!")]])]

/-- The mock agent of `TestGenerate`: the first request (`task_create`) is answered with the
task id, every later one (`task_get`) with the completed task; the context is
`context.Background()`, which is never done. -/
def testWorld : World :=
  { exchange := fun k =>
      if k = 0 then okReply (JValue.str "test-task-id") else okReply (JValue.obj testTask),
    latency := fun _ => 0, cancelAt := none, cause := CtxError.Canceled, tieToTimer := true }

end A2A

/-! ## The model registry: `internal/llm/models/models.go` and `a2a.go` -/

namespace Models

/-- The type `ModelID`, a Go string type. -/
abbrev ModelID := String

/-- The type `ModelProvider`, a Go string type. -/
abbrev ModelProvider := String

/-- A `float64` field given by a decimal literal of the source: `digits / 10^scale`. The
registry only stores and copies these values. -/
structure Decimal where
  digits : Int
  scale : Nat
  deriving DecidableEq

/-- The struct `Model`. A field left out of a composite literal has the Go zero value,
given here as the default of the field. -/
structure Model where
  ID : ModelID := ""
  Name : String := ""
  Provider : ModelProvider := ""
  APIModel : String := ""
  CostPer1MIn : Decimal := { digits := 0, scale := 0 }
  CostPer1MOut : Decimal := { digits := 0, scale := 0 }
  CostPer1MInCached : Decimal := { digits := 0, scale := 0 }
  CostPer1MOutCached : Decimal := { digits := 0, scale := 0 }
  ContextWindow : Int := 0
  DefaultMaxTokens : Int := 0
  CanReason : Bool := false
  SupportsAttachments : Bool := false
  deriving DecidableEq

/-- The constant `BedrockClaude37Sonnet`. -/
def BedrockClaude37Sonnet : ModelID := "bedrock.claude-3.7-sonnet"

/-- The constant `A2AGeneric` of `a2a.go`. -/
def A2AGeneric : ModelID := "a2a.generic"

/-- The constant `ProviderBedrock`. -/
def ProviderBedrock : ModelProvider := "bedrock"

/-- The constant `ProviderA2A`. -/
def ProviderA2A : ModelProvider := "a2a"

/-- The constant `ProviderOllama`. -/
def ProviderOllama : ModelProvider := "ollama"

/-- The constant `ProviderHuggingFace`. -/
def ProviderHuggingFace : ModelProvider := "huggingface"

/-- The constant `ProviderReplicate`. -/
def ProviderReplicate : ModelProvider := "replicate"

/-- The constant `ProviderCohere`. -/
def ProviderCohere : ModelProvider := "cohere"

/-- The constant `ProviderMock`. -/
def ProviderMock : ModelProvider := "__mock"

/-- The provider constants that `ProviderPopularity` names but that are declared in files of
the package outside the sources at hand; their values are parameters. -/
structure ProviderConsts where
  ProviderCopilot : ModelProvider
  ProviderAnthropic : ModelProvider
  ProviderOpenAI : ModelProvider
  ProviderGemini : ModelProvider
  ProviderGROQ : ModelProvider
  ProviderOpenRouter : ModelProvider
  ProviderAzure : ModelProvider
  ProviderVertexAI : ModelProvider

/-- A Go map as the list of its entries; `mapGet` and `mapSet` read and write it. -/
abbrev GoMap (κ ν : Type) := List (κ × ν)

/-- The lookup `v, ok := m[key]`: the value of the first entry under `key`. -/
def mapGet {κ ν : Type} [DecidableEq κ] : GoMap κ ν → κ → Option ν
  | [], _ => none
  | (k, v) :: rest, key => if k = key then some v else mapGet rest key

/-- The assignment `m[key] = value`: the entry under `key` is overwritten, or a new entry
is added. -/
def mapSet {κ ν : Type} [DecidableEq κ] : GoMap κ ν → κ → ν → GoMap κ ν
  | [], key, value => [(key, value)]
  | (k, v) :: rest, key, value =>
    if k = key then (k, value) :: rest else (k, v) :: mapSet rest key value

/-- The library function `maps.Copy(dst, src)`: every entry of `src` is assigned into
`dst`. -/
def mapsCopy {κ ν : Type} [DecidableEq κ] (dst src : GoMap κ ν) : GoMap κ ν :=
  src.foldl (fun d e => mapSet d e.1 e.2) dst

/-- The map literal `ProviderPopularity`, entries in source order. -/
def ProviderPopularity (k : ProviderConsts) : GoMap ModelProvider Int :=
  [(ProviderOllama, 1), (k.ProviderCopilot, 2), (k.ProviderAnthropic, 3),
   (k.ProviderOpenAI, 4), (k.ProviderGemini, 5), (k.ProviderGROQ, 6),
   (k.ProviderOpenRouter, 7), (ProviderBedrock, 8), (k.ProviderAzure, 9),
   (k.ProviderVertexAI, 10), (ProviderA2A, 11), (ProviderHuggingFace, 12),
   (ProviderReplicate, 13), (ProviderCohere, 14)]

/-- The map literal `SupportedModels`, before `init` runs. -/
def SupportedModels : GoMap ModelID Model :=
  [(BedrockClaude37Sonnet,
    { ID := BedrockClaude37Sonnet,
      Name := "Bedrock: Claude 3.7 Sonnet",
      Provider := ProviderBedrock,
      APIModel := "anthropic.claude-3-7-sonnet-20250219-v1:0",
      CostPer1MIn := { digits := 30, scale := 1 },
      CostPer1MInCached := { digits := 375, scale := 2 },
      CostPer1MOutCached := { digits := 30, scale := 2 },
      CostPer1MOut := { digits := 150, scale := 1 } })]

/-- The map literal `A2AModels` of `a2a.go`. -/
def A2AModels : GoMap ModelID Model :=
  [(A2AGeneric,
    { ID := A2AGeneric,
      Name := "A2A Generic",
      Provider := ProviderA2A,
      APIModel := "a2a.generic",
      CostPer1MIn := { digits := 0, scale := 0 },
      CostPer1MOut := { digits := 0, scale := 0 } })]

/-- The model tables that `init` merges but that are declared in files of the package
outside the sources at hand; their contents are parameters. -/
structure OtherTables where
  AnthropicModels : GoMap ModelID Model
  OpenAIModels : GoMap ModelID Model
  GeminiModels : GoMap ModelID Model
  GroqModels : GoMap ModelID Model
  AzureModels : GoMap ModelID Model
  OpenRouterModels : GoMap ModelID Model
  XAIModels : GoMap ModelID Model
  VertexAIGeminiModels : GoMap ModelID Model
  CopilotModels : GoMap ModelID Model
  OllamaModels : GoMap ModelID Model
  HuggingFaceModels : GoMap ModelID Model
  ReplicateModels : GoMap ModelID Model
  CohereModels : GoMap ModelID Model

/-- The tables `init` copies before `A2AModels`, in source order. -/
def OtherTables.before (t : OtherTables) : List (GoMap ModelID Model) :=
  [t.AnthropicModels, t.OpenAIModels, t.GeminiModels, t.GroqModels, t.AzureModels,
   t.OpenRouterModels, t.XAIModels, t.VertexAIGeminiModels, t.CopilotModels]

/-- The tables `init` copies after `A2AModels`, in source order. -/
def OtherTables.after (t : OtherTables) : List (GoMap ModelID Model) :=
  [t.OllamaModels, t.HuggingFaceModels, t.ReplicateModels, t.CohereModels]

/-- The function `init`: `SupportedModels` after the fourteen `maps.Copy` calls. -/
def init (t : OtherTables) : GoMap ModelID Model :=
  (t.before ++ A2AModels :: t.after).foldl mapsCopy SupportedModels

/-- Tables for the examples: one Ollama model, every other table empty. -/
def exampleTables : OtherTables :=
  { AnthropicModels := [], OpenAIModels := [], GeminiModels := [], GroqModels := [],
    AzureModels := [], OpenRouterModels := [], XAIModels := [], VertexAIGeminiModels := [],
    CopilotModels := [],
    OllamaModels := [("ollama.llama3", { ID := "ollama.llama3", Name := "Llama 3",
                                          Provider := ProviderOllama })],
    HuggingFaceModels := [], ReplicateModels := [], CohereModels := [] }

/-- Provider constants for the examples. -/
def exampleConsts : ProviderConsts :=
  { ProviderCopilot := "copilot", ProviderAnthropic := "anthropic", ProviderOpenAI := "openai",
    ProviderGemini := "gemini", ProviderGROQ := "groq", ProviderOpenRouter := "openrouter",
    ProviderAzure := "azure", ProviderVertexAI := "vertexai" }

end Models

/-! ## The terminal UI: `internal/tui/state/state.go` and `internal/tui/events.go` -/

namespace TUI

open A2A (GoError CtxError)

/-- Page identifiers (`page.PageID`): the two constants `Update` compares with, and any
other identifier. -/
inductive PageID where
  | ChatPage
  | LogsPage
  | other (id : String)
  deriving DecidableEq

/-- The fields of `session.Session` that the UI code reads, with its title. The token
counters are Go `int64` values. -/
structure Session where
  ID : String
  Title : String
  PromptTokens : Int
  CompletionTokens : Int
  deriving DecidableEq

/-- The type `agent.AgentEventType`: the two constants `Update` compares with, and any other
value. -/
inductive AgentEventType where
  | AgentEventTypeResponse
  | AgentEventTypeSummarize
  | other (name : String)
  deriving DecidableEq

/-- The fields of `agent.AgentEvent` that `Update` reads; a nil `Error` is `none`, and the
Go field `Type` is `Type_` here. -/
structure AgentEvent where
  Type_ : AgentEventType
  Error : Option GoError
  Progress : String
  Done : Bool

/-- The type `pubsub.EventType`. -/
inductive EventType where
  | CreatedEvent
  | UpdatedEvent
  | DeletedEvent
  deriving DecidableEq

/-- The struct `pubsub.Event[T]`; the Go field `Type` is `Type_` here. -/
structure Event (α : Type) where
  Type_ : EventType
  Payload : α

/-- The fields of `permission.PermissionRequest`: the correlation identifier, the tool
name, the description of the action and the working-directory scope. -/
structure PermissionRequest where
  ID : String
  ToolName : String
  Description : String
  Path : String
  deriving DecidableEq

/-- The type `dialog.PermissionAction` of the field `Action`: the three constants that
`Update` switches on and, since a Go named type admits values that are none of its
constants (its zero value among them), every other value, kept by its underlying string. -/
inductive PermissionAction where
  | PermissionAllow
  | PermissionAllowForSession
  | PermissionDeny
  | other (value : String)
  deriving DecidableEq

/-- The messages of `Update` covered here: `pubsub.Event[agent.AgentEvent]`,
`chat.SessionSelectedMsg`, `dialog.SessionSelectedMsg`, `startCompactSessionMsg`,
`dialog.PermissionResponseMsg`, `pubsub.Event[session.Session]`,
`dialog.CloseMultiArgumentsDialogMsg`, `dialog.CommandRunCustomMsg`, `tea.KeyMsg` (by
its `String()`) and `page.PageChangeMsg`. The field `Args` is a Go `map[string]string`: it is given by its entries
in the order in which a `range` over it visits them in the run at hand. -/
inductive Msg where
  | AgentEvent (e : Event AgentEvent)
  | ChatSessionSelectedMsg (s : Session)
  | DialogSessionSelectedMsg (s : Session)
  | startCompactSessionMsg
  | PermissionResponseMsg (Permission : PermissionRequest) (Action : PermissionAction)
  | SessionEvent (e : Event Session)
  | CloseMultiArgumentsDialogMsg (Submit : Bool) (Content : String)
      (Args : List (String × String))
  | CommandRunCustomMsg (Content : String) (Args : List (String × String))
  | KeyMsg (key : String)
  | PageChangeMsg (ID : PageID)

/-- Whether a message is a `tea.KeyMsg` (the test `msg.(tea.KeyMsg)`). -/
def Msg.isKeyMsg : Msg → Bool
  | Msg.KeyMsg _ => true
  | _ => false

/-- The components `Update` forwards messages to: the status bar, the current page and
the dialogs. Their code is outside this model; calls on them are recorded. -/
inductive Component where
  | Status
  | Page (id : PageID)
  | Permissions
  | Help
  | Quit
  | Session
  | Command
  | Model
  | Init
  | Filepicker
  | Theme
  | MultiArguments

/-- A command (`tea.Cmd`) as `Update` returns it, by the call that built it: nil,
`util.ReportError`, `util.ReportWarn`, `util.ReportInfo`, `util.CmdHandler(msg)`, the
closure that runs `CoderAgent.Summarize` on the session selected when it runs,
`tea.Batch(cmds...)`, and the command a component returned: from its own `Update` for a
message, from its `Init()`, or from its `SetSize(width, height)`. -/
inductive Cmd where
  | nil
  | ReportError (err : GoError)
  | ReportWarn (text : String)
  | ReportInfo (text : String)
  | CmdHandler (msg : Msg)
  | SummarizeSelected
  | Batch (cmds : List Cmd)
  | ofComponent (c : Component) (msg : Msg)
  | ofInit (c : Component)
  | ofSetSize (c : Component) (width height : Int)

/-- A call `Update` makes on a collaborator: `Update(msg)` on a component,
`a.Dialogs.Session.SetSelectedSession(id)`, `a.Dialogs.Filepicker.ToggleFilepicker(b)`, the
three operations of the permission broker `a.App.Permissions`, and the calls `Init()` and
`SetSize(width, height)` that `moveToPage` makes on a page. -/
inductive Effect where
  | Update (c : Component) (msg : Msg)
  | SetSelectedSession (id : String)
  | ToggleFilepicker (shown : Bool)
  | Grant (p : PermissionRequest)
  | GrantPersistant (p : PermissionRequest)
  | Deny (p : PermissionRequest)
  | Init (c : Component)
  | SetSize (c : Component) (width height : Int)

/-- What `Update` reads from its collaborators: `a.App.CoderAgent.IsBusy()`,
`a.App.CoderAgent.Model().ContextWindow` (an `int64`) and `config.Get().AutoCompact`. -/
structure App where
  CoderAgentIsBusy : Bool
  ContextWindow : Int
  AutoCompact : Bool

/-- The struct `state.AppModel`, with the `ShowPermissions` flag that `events.go` uses. The
component values (`Pages`, `Status`, `Dialogs`) are represented by the record `effects` of
the calls made on them, oldest first; of the pages in `Pages` the state keeps which ones
implement `layout.Sizeable` (the type assertion of `moveToPage`), and every page asked for
is taken to be in `Pages`. `LoadedPages` is the Go map `map[page.PageID]bool`. -/
structure AppModel where
  Width : Int
  Height : Int
  CurrentPage : PageID
  PreviousPage : PageID
  LoadedPages : Models.GoMap PageID Bool
  PagesSizeable : PageID → Bool := fun _ => true
  App : App
  SelectedSession : Session
  ShowHelp : Bool
  ShowQuit : Bool
  ShowSession : Bool
  ShowCommand : Bool
  ShowModel : Bool
  ShowInit : Bool
  ShowFilepicker : Bool
  ShowTheme : Bool
  ShowMultiArguments : Bool
  ShowPermissions : Bool
  IsCompacting : Bool
  CompactingMessage : String
  effects : List Effect

/-! ### Machine arithmetic of the compaction threshold -/

/-- Go `int64` addition: the sum reduced to the range from `-2^63` to `2^63 - 1`. -/
def addInt64 (x y : Int) : Int :=
  (x + y + 2 ^ 63) % 2 ^ 64 - 2 ^ 63

/-- Counts the binary digits of `n` by halving, at most `fuel` times. -/
def bitLengthAux : Nat → Nat → Nat
  | 0, _ => 0
  | fuel + 1, n => if n = 0 then 0 else bitLengthAux fuel (n / 2) + 1

/-- The number of binary digits of a natural number (`n` halvings always suffice). -/
def bitLength (n : Nat) : Nat :=
  bitLengthAux n n

/-- Rounding of a natural number to 53 significant bits, ties to even: the IEEE-754
binary64 rounding of an integer-scaled magnitude. -/
def roundTo53 (n : Nat) : Nat :=
  let sh := bitLength n - 53
  let q := n / 2 ^ sh
  let r := n % 2 ^ sh
  if 2 ^ sh < 2 * r ∨ (2 * r = 2 ^ sh ∧ q % 2 = 1) then (q + 1) * 2 ^ sh else q * 2 ^ sh

/-- The float64 nearest to the constant `0.95` is `mant95 / 2^53`. -/
def mant95 : Nat := 8556839292003942

/-- The Go expression `int64(float64(contextWindow)*0.95)`: the conversion to float64 rounds
the magnitude to 53 bits, the product with the float64 constant is rounded to 53 bits, and
the conversion to `int64` truncates toward zero. -/
def threshold95 (contextWindow : Int) : Int :=
  let mag : Nat := roundTo53 (roundTo53 contextWindow.natAbs * mant95) / 2 ^ 53
  if contextWindow < 0 then -(mag : Int) else (mag : Int)

/-! ### `AppModel.Update` -/

/-- One block of the tail of `Update`:
`if a.ShowX { d, cmd := a.Dialogs.X.Update(msg); cmds = append(cmds, cmd);
if _, ok := msg.(tea.KeyMsg); ok { return a, tea.Batch(cmds...) } }`.
`Except.error` is the early return. -/
def dialogBlock (shown : Bool) (d : Component) (msg : Msg) (st : AppModel × List Cmd) :
    Except (AppModel × Cmd) (AppModel × List Cmd) :=
  if shown then
    let a : AppModel := { st.1 with effects := st.1.effects ++ [Effect.Update d msg] }
    let cmds := st.2 ++ [Cmd.ofComponent d msg]
    if msg.isKeyMsg then Except.error (a, Cmd.Batch cmds) else Except.ok (a, cmds)
  else Except.ok st

/-- The code of `Update` after the type switch (from `if a.ShowFilepicker` to the end). -/
def Update.tail (a : AppModel) (msg : Msg) (cmds : List Cmd) : AppModel × Cmd :=
  let run : Except (AppModel × Cmd) (AppModel × List Cmd) :=
    dialogBlock a.ShowFilepicker Component.Filepicker msg (a, cmds)
      >>= dialogBlock a.ShowQuit Component.Quit msg
      >>= dialogBlock a.ShowPermissions Component.Permissions msg
      >>= dialogBlock a.ShowSession Component.Session msg
      >>= dialogBlock a.ShowCommand Component.Command msg
      >>= dialogBlock a.ShowModel Component.Model msg
      >>= dialogBlock a.ShowInit Component.Init msg
      >>= dialogBlock a.ShowTheme Component.Theme msg
  match run with
  | Except.error ret => ret
  | Except.ok (a1, cmds1) =>
    ({ a1 with effects := a1.effects ++
        [Effect.Update Component.Status msg, Effect.Update (Component.Page a1.CurrentPage) msg] },
      Cmd.Batch (cmds1 ++ [Cmd.ofComponent (Component.Page a1.CurrentPage) msg]))

/-- The sum `a.SelectedSession.CompletionTokens + a.SelectedSession.PromptTokens`. -/
def AppModel.tokens (a : AppModel) : Int :=
  addInt64 a.SelectedSession.CompletionTokens a.SelectedSession.PromptTokens

/-- The case `pubsub.Event[agent.AgentEvent]` of `Update`. -/
def Update.agentEvent (a : AppModel) (msg : Event AgentEvent) : AppModel × Cmd :=
  let payload := msg.Payload
  match payload.Error with
  | some err => ({ a with IsCompacting := false }, Cmd.ReportError err)
  | none =>
    let a1 : AppModel := { a with CompactingMessage := payload.Progress }
    if payload.Done ∧ payload.Type_ = AgentEventType.AgentEventTypeSummarize then
      ({ a1 with IsCompacting := false }, Cmd.ReportInfo "Session summarization complete")
    else if payload.Done ∧ payload.Type_ = AgentEventType.AgentEventTypeResponse
        ∧ a1.SelectedSession.ID ≠ "" then
      let contextWindow := a1.App.ContextWindow
      let tokens := a1.tokens
      if threshold95 contextWindow ≤ tokens ∧ a1.App.AutoCompact = true then
        (a1, Cmd.CmdHandler Msg.startCompactSessionMsg)
      else (a1, Cmd.nil)
    else (a1, Cmd.nil)

/-- The case `startCompactSessionMsg` of `Update`. -/
def Update.startCompact (a : AppModel) : AppModel × Cmd :=
  let a1 : AppModel :=
    { a with IsCompacting := true, CompactingMessage := "Starting summarization..." }
  if a1.SelectedSession.ID = "" then
    ({ a1 with IsCompacting := false }, Cmd.ReportWarn "No active session to summarize")
  else (a1, Cmd.SummarizeSelected)

/-- The case `dialog.PermissionResponseMsg` of `Update`. The `switch msg.Action` has three
cases and no `default`: for any other action no call is made on the broker. -/
def Update.permissionResponse (a : AppModel) (Permission : PermissionRequest)
    (Action : PermissionAction) : AppModel × Cmd :=
  let a1 : AppModel :=
    match Action with
    | PermissionAction.PermissionAllow =>
      { a with effects := a.effects ++ [Effect.Grant Permission] }
    | PermissionAction.PermissionAllowForSession =>
      { a with effects := a.effects ++ [Effect.GrantPersistant Permission] }
    | PermissionAction.PermissionDeny =>
      { a with effects := a.effects ++ [Effect.Deny Permission] }
    | PermissionAction.other _ => a
  ({ a1 with ShowPermissions := false }, Cmd.nil)

/-- Whether `s` begins with the characters `p`. -/
def beginsWith : List Char → List Char → Bool
  | [], _ => true
  | _ :: _, [] => false
  | p :: ps, c :: cs => p == c && beginsWith ps cs

/-- The scan of `strings.ReplaceAll` for a non-empty `old`, on characters, left to right:
`skip` characters of a matched occurrence are still to be passed over. -/
def replaceAllChars (old new : List Char) : List Char → Nat → List Char
  | [], _ => []
  | _ :: cs, skip + 1 => replaceAllChars old new cs skip
  | c :: cs, 0 =>
    if beginsWith old (c :: cs) then new ++ replaceAllChars old new cs (old.length - 1)
    else c :: replaceAllChars old new cs 0

/-- The library function `strings.ReplaceAll(s, old, new)`: every non-overlapping occurrence
of `old`, found left to right, is replaced by `new`; an empty `old` matches before every
character and at the end. -/
def ReplaceAll (s old new : String) : String :=
  if old.data = [] then
    String.mk (new.data ++ (s.data.map (fun c => c :: new.data)).flatten)
  else String.mk (replaceAllChars old.data new.data s.data 0)

/-- The loop `for name, value := range msg.Args` of the case
`dialog.CloseMultiArgumentsDialogMsg`, over the entries in the order of the iteration. -/
def replaceArgs (content : String) : List (String × String) → String
  | [] => content
  | (name, value) :: rest => replaceArgs (ReplaceAll content ("$" ++ name) value) rest

/-- The case `dialog.CloseMultiArgumentsDialogMsg` of `Update`. -/
def Update.closeMultiArguments (a : AppModel) (Submit : Bool) (Content : String)
    (Args : List (String × String)) : AppModel × Cmd :=
  let a1 : AppModel := { a with ShowMultiArguments := false }
  if Submit then
    (a1, Cmd.CmdHandler (Msg.CommandRunCustomMsg (replaceArgs Content Args) Args))
  else (a1, Cmd.nil)

/-- The case `pubsub.Event[session.Session]` of `Update`, up to the tail it continues
with. -/
def Update.sessionEvent (a : AppModel) (msg : Event Session) : AppModel :=
  if msg.Type_ = EventType.UpdatedEvent ∧ msg.Payload.ID = a.SelectedSession.ID then
    { a with SelectedSession := msg.Payload }
  else a

/-- The key bindings of `keys.Quit` in `tui.go`: `key.WithKeys("ctrl+c")`. -/
def keysQuit : List String := ["ctrl+c"]

/-- The library function `key.Matches(msg, binding)` for an enabled binding: the key's
`String()` is one of the binding's keys. -/
def keyMatches (key : String) (binding : List String) : Bool :=
  binding.contains key

/-- The branch `case key.Matches(msg, keys.Quit)` inside `case tea.KeyMsg` of `Update`. -/
def Update.keyQuit (a : AppModel) : AppModel × Cmd :=
  let a : AppModel := { a with ShowQuit := !a.ShowQuit }
  let a : AppModel := if a.ShowHelp then { a with ShowHelp := false } else a
  let a : AppModel := if a.ShowSession then { a with ShowSession := false } else a
  let a : AppModel := if a.ShowCommand then { a with ShowCommand := false } else a
  let a : AppModel :=
    if a.ShowFilepicker then
      { a with ShowFilepicker := false,
               effects := a.effects ++ [Effect.ToggleFilepicker false] }
    else a
  let a : AppModel := if a.ShowModel then { a with ShowModel := false } else a
  let a : AppModel := if a.ShowMultiArguments then { a with ShowMultiArguments := false } else a
  (a, Cmd.nil)

/-- The case `tea.Msg` of `Update` for a message other than the string "setup-agent-os": the
inner `switch msg` matches nothing and control reaches the code after the type switch. -/
def Update.teaMsg (a : AppModel) (msg : Msg) : AppModel × Cmd :=
  Update.tail a msg []

/-- The method `(*state.AppModel).moveToPage` of `tui.go`. The test
`_, ok := a.LoadedPages[pageID]; !ok` asks whether `pageID` is a key of the map, whatever
value is stored. The page `a.Pages[pageID]` is a component outside the model and is taken
to exist; the calls made on it are recorded. -/
def moveToPage (a : AppModel) (pageID : PageID) : AppModel × Cmd :=
  if a.App.CoderAgentIsBusy then
    (a, Cmd.ReportWarn "Agent is busy, please wait...")
  else
    let loaded : AppModel × List Cmd :=
      match Models.mapGet a.LoadedPages pageID with
      | none =>
        ({ a with
            effects := a.effects ++ [Effect.Init (Component.Page pageID)],
            LoadedPages := Models.mapSet a.LoadedPages pageID true },
          [Cmd.ofInit (Component.Page pageID)])
      | some _ => (a, [])
    let a1 : AppModel :=
      { loaded.1 with PreviousPage := loaded.1.CurrentPage, CurrentPage := pageID }
    if a1.PagesSizeable a1.CurrentPage then
      ({ a1 with effects := a1.effects ++
          [Effect.SetSize (Component.Page a1.CurrentPage) a1.Width a1.Height] },
        Cmd.Batch (loaded.2 ++
          [Cmd.ofSetSize (Component.Page a1.CurrentPage) a1.Width a1.Height]))
    else (a1, Cmd.Batch loaded.2)

/-- The method `(*state.AppModel).Update` on the messages of `Msg`. The Go type switch takes
the first case, in source order, whose type the message has. `tea.Msg` is the empty
interface, which every message has, and `case tea.Msg` stands before `case tea.KeyMsg` and
`default`: a message without a case of its own above `case tea.Msg`, a `tea.KeyMsg`
included, is handled by `case tea.Msg`. A case that does not return continues with
`Update.tail`. -/
def Update (a : AppModel) (msg : Msg) : AppModel × Cmd :=
  match msg with
  | Msg.PermissionResponseMsg p act => Update.permissionResponse a p act
  | Msg.PageChangeMsg id => moveToPage a id
  | Msg.startCompactSessionMsg => Update.startCompact a
  | Msg.AgentEvent e => Update.agentEvent a e
  | Msg.ChatSessionSelectedMsg s =>
    Update.tail
      { a with SelectedSession := s, effects := a.effects ++ [Effect.SetSelectedSession s.ID] }
      msg []
  | Msg.SessionEvent e => Update.tail (Update.sessionEvent a e) msg []
  | Msg.DialogSessionSelectedMsg s =>
    let a1 : AppModel := { a with ShowSession := false }
    if a1.CurrentPage = PageID.ChatPage then
      (a1, Cmd.CmdHandler (Msg.ChatSessionSelectedMsg s))
    else (a1, Cmd.nil)
  | Msg.CloseMultiArgumentsDialogMsg submit content args =>
    Update.closeMultiArguments a submit content args
  | Msg.CommandRunCustomMsg _ _ => Update.teaMsg a msg
  | Msg.KeyMsg _ => Update.teaMsg a msg

/-- What the tail of `Update` may have returned so far keeps the selected session `s`. -/
def keepsSession (s : Session) : Except (AppModel × Cmd) (AppModel × List Cmd) → Prop
  | Except.ok x => x.1.SelectedSession = s
  | Except.error x => x.1.SelectedSession = s

/-- The state that the function `New` of `tui.go` builds for the application `app`: the
chat page is current, no page is loaded, every other field has its zero value. -/
def New (app : App) (sizeable : PageID → Bool) : AppModel :=
  { Width := 0, Height := 0, CurrentPage := PageID.ChatPage, PreviousPage := PageID.other "",
    LoadedPages := [], PagesSizeable := sizeable, App := app,
    SelectedSession := { ID := "", Title := "", PromptTokens := 0, CompletionTokens := 0 },
    ShowHelp := false, ShowQuit := false, ShowSession := false, ShowCommand := false,
    ShowModel := false, ShowInit := false, ShowFilepicker := false, ShowTheme := false,
    ShowMultiArguments := false, ShowPermissions := false, IsCompacting := false,
    CompactingMessage := "", effects := [] }

/-- The UI states the program reaches: the state built by `New`, and from a reached state
the state after `Update` has handled any message and the state in which the collaborators
behind `a.App` answer differently. -/
inductive Reachable : AppModel → Prop where
  | start (app : App) (sizeable : PageID → Bool) : Reachable (New app sizeable)
  | update (a : AppModel) (msg : Msg) : Reachable a → Reachable (Update a msg).1
  | world (a : AppModel) (app : App) : Reachable a → Reachable { a with App := app }

/-- Every value stored in the map `LoadedPages` is `true`. -/
def loadedOnlyTrue (a : AppModel) : Prop :=
  ∀ e, e ∈ a.LoadedPages → e.2 = true

mutual

/-- The calls of `a.App.CoderAgent.Summarize` that a command built by `Update` makes when it
runs while the UI state is `r`, by the session id passed. The closure of the case
`startCompactSessionMsg` reads `a.SelectedSession.ID` through the pointer `a` at that
moment; a batch makes the calls of its members; the reports and `util.CmdHandler` make
none, and what a component's own command does is outside the model. -/
def Cmd.summarizeCalls : Cmd → AppModel → List String
  | Cmd.SummarizeSelected, r => [r.SelectedSession.ID]
  | Cmd.Batch cmds, r => summarizeCallsOfList cmds r
  | _, _ => []

/-- The calls of `Summarize` made by the commands of a list, in order. -/
def summarizeCallsOfList : List Cmd → AppModel → List String
  | [], _ => []
  | c :: cs, r => c.summarizeCalls r ++ summarizeCallsOfList cs r

end

/-- What the tail of `Update` may have returned so far differs from the state `a` in the
record of effects at most. -/
def keepsFields (a : AppModel) : Except (AppModel × Cmd) (AppModel × List Cmd) → Prop
  | Except.ok x => ∃ eff, x.1 = { a with effects := eff }
  | Except.error x => ∃ eff, x.1 = { a with effects := eff }

/-! ### States used in the examples -/

/-- A UI state on the chat page: the coder agent is busy, the active model has a context
window of 200000 tokens, auto-compaction is on, and the selected session "s1" has used
195000 tokens. -/
def busyModel : AppModel :=
  { Width := 80, Height := 24, CurrentPage := PageID.ChatPage, PreviousPage := PageID.ChatPage,
    LoadedPages := [(PageID.ChatPage, true)],
    App := { CoderAgentIsBusy := true, ContextWindow := 200000, AutoCompact := true },
    SelectedSession :=
      { ID := "s1", Title := "first", PromptTokens := 150000, CompletionTokens := 45000 },
    ShowHelp := false, ShowQuit := false, ShowSession := false, ShowCommand := false,
    ShowModel := false, ShowInit := false, ShowFilepicker := false, ShowTheme := false,
    ShowMultiArguments := false, ShowPermissions := false, IsCompacting := true,
    CompactingMessage := "", effects := [] }

/-- A UI state like `busyModel` whose active model declares a context window of
48495294637973935 tokens (above 2^53) and whose selected session has used
46070529906075239 tokens. -/
def hugeWindowModel : AppModel :=
  { busyModel with
    App := { CoderAgentIsBusy := true, ContextWindow := 48495294637973935, AutoCompact := true },
    SelectedSession :=
      { ID := "s1", Title := "first", PromptTokens := 46070529906075239,
        CompletionTokens := 0 } }

/-- A UI state in which the active model is `a2a.generic` (context window 0),
auto-compaction is on and session "s1", with no tokens used, is selected. -/
def a2aModel : AppModel :=
  { busyModel with
    App := { CoderAgentIsBusy := false, ContextWindow := 0, AutoCompact := true },
    SelectedSession := { ID := "s1", Title := "first", PromptTokens := 0, CompletionTokens := 0 },
    IsCompacting := false }

/-- A UI state with the help, session, command and model dialogs open, and the quit and
multi-arguments dialogs closed. -/
def dialogsOpenModel : AppModel :=
  { busyModel with ShowHelp := true, ShowSession := true, ShowCommand := true,
                   ShowModel := true }

/-- A UI state on the chat page in which the coder agent is idle and only the chat page is
loaded. -/
def idleModel : AppModel :=
  { busyModel with
    App := { CoderAgentIsBusy := false, ContextWindow := 200000, AutoCompact := true } }

/-- A permission request for the examples. -/
def examplePermission : PermissionRequest :=
  { ID := "p1", ToolName := "bash", Description := "run ls", Path := "/work" }

/-- Another session, "s2". -/
def otherSession : Session :=
  { ID := "s2", Title := "second", PromptTokens := 10, CompletionTokens := 5 }

end TUI

/-! ## Theorems about `a2a.go` -/

namespace A2A

theorem Call_response_ok (c : Client) (w : World) (s : St) (method : String) (params : JValue)
    (r : JSONRPCResponse) (h : w.exchange s.calls = Exchange.response r) (he : r.Error = none) :
    Call c w s method params = (Except.ok r, afterCall c w s method params) := by
  simp [Call, h, he, afterCall]

theorem getLast?_of_ne_nil {α : Type} (l : List α) (h : l ≠ []) :
    l.getLast? = some (l.getLast h) := by
  cases l with
  | nil => exact absurd rfl h
  | cons a t => exact List.getLast?_eq_getLast (a :: t) h

theorem result?_eq_some (x : Exchange) (v : JValue) (h : x.result? = some v) :
    ∃ r, x = Exchange.response r ∧ r.Error = none ∧ r.Result = v := by
  cases x with
  | response r =>
    cases he : r.Error with
    | none =>
      simp only [Exchange.result?, he, Option.some.injEq] at h
      exact ⟨r, rfl, he, h⟩
    | some e => simp [Exchange.result?, he] at h
  | marshalFailed e => simp [Exchange.result?] at h
  | newRequestFailed e => simp [Exchange.result?] at h
  | sendFailed e => simp [Exchange.result?] at h
  | decodeFailed e => simp [Exchange.result?] at h

theorem Call_of_result (c : Client) (w : World) (s : St) (method : String) (params : JValue)
    (v : JValue) (h : (w.exchange s.calls).result? = some v) :
    ∃ r, r.Result = v ∧ Call c w s method params = (Except.ok r, afterCall c w s method params) := by
  obtain ⟨r, hx, he, hr⟩ := result?_eq_some _ _ h
  exact ⟨r, hr, Call_response_ok c w s method params r hx he⟩

theorem isPending_spec (x : Exchange) (h : x.isPending = true) :
    ∃ task status, x.result? = some (JValue.obj task) ∧
      mapIndex task "status" = JValue.str status ∧ status ≠ "completed" ∧ status ≠ "failed" := by
  unfold Exchange.isPending at h
  split at h
  · rename_i task hres
    split at h
    · rename_i status hst
      simp only [Bool.and_eq_true, bne_iff_ne, ne_eq] at h
      exact ⟨task, status, hres, hst, h.1, h.2⟩
    · exact absurd h (by simp)
  · exact absurd h (by simp)

theorem selectWait_timer (w : World) (now : Nat)
    (h : ∀ t, w.cancelAt = some t → now + 1 * Second < t) :
    selectWait w now = Selected.timer (now + 1 * Second) := by
  unfold selectWait
  cases hc : w.cancelAt with
  | none => rfl
  | some t =>
    have ht := h t hc
    have h1 : ¬ t ≤ now := by omega
    have h2 : ¬ t < now + 1 * Second := by omega
    have h3 : ¬ (t = now + 1 * Second ∧ w.tieToTimer = false) := by omega
    simp only [h1, h2, h3, if_false]

theorem selectWait_done (w : World) (now t : Nat) (hc : w.cancelAt = some t) (h : t ≤ now) :
    selectWait w now = Selected.done now := by
  simp [selectWait, hc, h]

theorem afterCall_get (c : Client) (w : World) (s : St) (taskID : String) :
    afterCall c w s "task_get" (taskGetParams taskID) =
      { now := s.now + w.latency s.calls, calls := s.calls + 1,
        sent := s.sent ++ [getRequest c taskID], waits := s.waits } := rfl

theorem pollLoop_pending_step (c : Client) (w : World) (taskID : String) (fuel : Nat) (s : St)
    (hp : (w.exchange s.calls).isPending = true)
    (hw : ∀ t, w.cancelAt = some t → (afterPending c w taskID s).now < t) :
    pollLoop c w taskID (fuel + 1) s = pollLoop c w taskID fuel (afterPending c w taskID s) := by
  obtain ⟨task, status, hres, hst, hnc, hnf⟩ := isPending_spec _ hp
  obtain ⟨r, hr, hcall⟩ := Call_of_result c w s "task_get" (taskGetParams taskID) _ hres
  have hsel := selectWait_timer w (s.now + w.latency s.calls) hw
  simp only [pollLoop, hcall, hr, hst, hnc, hnf, if_false, afterCall_get, hsel]
  rfl

theorem afterPendings_succ (c : Client) (w : World) (taskID : String) (n : Nat) (s : St) :
    afterPendings c w taskID (n + 1) s
      = afterPending c w taskID (afterPendings c w taskID n s) := by
  induction n generalizing s with
  | zero => rfl
  | succ n ih =>
    show afterPendings c w taskID (n + 1) (afterPending c w taskID s) = _
    rw [ih]
    rfl

theorem afterPendings_calls (c : Client) (w : World) (taskID : String) (n : Nat) (s : St) :
    (afterPendings c w taskID n s).calls = s.calls + n := by
  induction n with
  | zero => rfl
  | succ n ih => rw [afterPendings_succ]; simp only [afterPending, ih]; omega

theorem afterPendings_sent (c : Client) (w : World) (taskID : String) (n : Nat) (s : St) :
    (afterPendings c w taskID n s).sent = s.sent ++ List.replicate n (getRequest c taskID) := by
  induction n with
  | zero => simp [afterPendings]
  | succ n ih =>
    rw [afterPendings_succ]
    simp only [afterPending, ih, List.append_assoc, List.replicate_succ']

theorem afterPendings_waits (c : Client) (w : World) (taskID : String) (n : Nat) (s : St) :
    (afterPendings c w taskID n s).waits = s.waits ++ List.replicate n (1 * Second) := by
  induction n with
  | zero => simp [afterPendings]
  | succ n ih =>
    rw [afterPendings_succ]
    simp only [afterPending, ih, List.append_assoc, List.replicate_succ']

theorem pollLoop_skip (c : Client) (w : World) (taskID : String) (fuel : Nat) :
    ∀ (n : Nat) (s : St),
      (∀ k, k < n → (w.exchange (s.calls + k)).isPending = true) →
      (∀ k, k < n → ∀ t, w.cancelAt = some t → (afterPendings c w taskID (k + 1) s).now < t) →
      pollLoop c w taskID (n + fuel) s = pollLoop c w taskID fuel (afterPendings c w taskID n s) := by
  intro n
  induction n with
  | zero => intro s _ _; simp [afterPendings]
  | succ n ih =>
    intro s hp hw
    have hstep := pollLoop_pending_step c w taskID (n + fuel) s
      (by simpa using hp 0 (Nat.succ_pos n)) (fun t ht => hw 0 (Nat.succ_pos n) t ht)
    have hfuel : n + 1 + fuel = n + fuel + 1 := by omega
    rw [hfuel, hstep]
    have := ih (afterPending c w taskID s)
      (fun k hk => by
        have h := hp (k + 1) (by omega)
        have hc : (afterPending c w taskID s).calls + k = s.calls + (k + 1) := by
          simp only [afterPending]; omega
        rw [hc]; exact h)
      (fun k hk t ht => hw (k + 1) (by omega) t ht)
    rw [this]
    rfl

theorem Generate_eq_pollLoop (c : Client) (w : World) (messages : List Message) (s : St)
    (fuel : Nat) (taskID : String) (hne : messages ≠ [])
    (h0 : (w.exchange s.calls).result? = some (JValue.str taskID)) :
    Generate c w messages fuel s = pollLoop c w taskID fuel (atPoll c w messages s taskID 0) := by
  obtain ⟨r, hr, hcall⟩ := Call_of_result c w s "task_create"
    (taskCreateParams (firstText (messages.getLast hne).Parts)) _ h0
  simp only [Generate, getLast?_of_ne_nil messages hne, hcall, hr, atPoll, afterPendings,
    lastText]

/-- Under the standing assumptions (non-empty messages, `task_create` answered with the
string `taskID`, `n` non-terminal polls, no cancellation before the end of a wait after
them), a run with budget `n + fuel` equals the loop started at poll number `n`. -/
theorem Generate_reaches_poll (c : Client) (w : World) (messages : List Message) (s : St)
    (n fuel : Nat) (taskID : String) (hne : messages ≠ [])
    (h0 : (w.exchange s.calls).result? = some (JValue.str taskID))
    (hp : ∀ k, k < n → (w.exchange (s.calls + 1 + k)).isPending = true)
    (hw : ∀ k, k < n → ∀ t, w.cancelAt = some t →
      (atPoll c w messages s taskID (k + 1)).now < t) :
    Generate c w messages (n + fuel) s
      = pollLoop c w taskID fuel (atPoll c w messages s taskID n) := by
  rw [Generate_eq_pollLoop c w messages s (n + fuel) taskID hne h0]
  exact pollLoop_skip c w taskID fuel n _ hp hw

theorem atPoll_calls (c : Client) (w : World) (messages : List Message) (s : St)
    (taskID : String) (n : Nat) : (atPoll c w messages s taskID n).calls = s.calls + 1 + n := by
  simp [atPoll, afterPendings_calls, afterCall]

theorem atWait_sent (c : Client) (w : World) (messages : List Message) (s : St)
    (taskID : String) (n : Nat) :
    (atWait c w messages s taskID n).sent
      = s.sent ++ createRequest c messages :: List.replicate (n + 1) (getRequest c taskID) := by
  simp [atWait, atPoll, afterPendings_sent, afterCall, createRequest, getRequest,
    List.replicate_succ']

theorem atWait_waits (c : Client) (w : World) (messages : List Message) (s : St)
    (taskID : String) (n : Nat) :
    (atWait c w messages s taskID n).waits = s.waits ++ List.replicate n (1 * Second) := by
  simp [atWait, atPoll, afterPendings_waits, afterCall]

theorem atWait_calls (c : Client) (w : World) (messages : List Message) (s : St)
    (taskID : String) (n : Nat) : (atWait c w messages s taskID n).calls = s.calls + n + 2 := by
  simp only [atWait, afterCall, atPoll_calls]; omega

theorem Call_failed (c : Client) (w : World) (s : St) (method : String) (params : JValue)
    (h : (w.exchange s.calls).result? = none) :
    ∃ inner s1, Call c w s method params = (Except.error inner, s1) ∧ s1.calls = s.calls + 1
      ∧ s1.waits = s.waits := by
  unfold Call
  cases hx : w.exchange s.calls with
  | response r =>
    cases he : r.Error with
    | none => simp [hx, Exchange.result?, he] at h
    | some e => simp only [he]; exact ⟨_, _, rfl, rfl, rfl⟩
  | marshalFailed e => exact ⟨_, _, rfl, rfl, rfl⟩
  | newRequestFailed e => exact ⟨_, _, rfl, rfl, rfl⟩
  | sendFailed e => exact ⟨_, _, rfl, rfl, rfl⟩
  | decodeFailed e => exact ⟨_, _, rfl, rfl, rfl⟩

theorem pollLoop_call_failed (c : Client) (w : World) (taskID : String) (fuel : Nat) (s : St)
    (h : (w.exchange s.calls).result? = none) :
    ∃ inner s1, pollLoop c w taskID (fuel + 1) s
        = some (Except.error (GoError.wrapError "failed to get task: %w" inner), s1)
      ∧ s1.calls = s.calls + 1 ∧ s1.waits = s.waits := by
  obtain ⟨inner, s1, hcall, hc, hw⟩ := Call_failed c w s "task_get" (taskGetParams taskID) h
  exact ⟨inner, s1, by simp only [pollLoop, hcall], hc, hw⟩

theorem pollLoop_failed (c : Client) (w : World) (taskID : String) (fuel : Nat) (s : St)
    (task : List (String × JValue))
    (h : (w.exchange s.calls).result? = some (JValue.obj task))
    (hst : mapIndex task "status" = JValue.str "failed") :
    pollLoop c w taskID (fuel + 1) s
      = some (Except.error (GoError.errorString "task failed: %v" [JValue.obj task]),
          afterCall c w s "task_get" (taskGetParams taskID)) := by
  obtain ⟨r, hr, hcall⟩ := Call_of_result c w s "task_get" (taskGetParams taskID) _ h
  have hne : ¬ ("failed" = "completed") := by decide
  simp only [pollLoop, hcall, hr, hst, hne, if_true, if_false]

theorem pollLoop_cancelled (c : Client) (w : World) (taskID : String) (fuel : Nat) (s : St)
    (t : Nat) (hp : (w.exchange s.calls).isPending = true) (hc : w.cancelAt = some t)
    (ht : t ≤ (afterCall c w s "task_get" (taskGetParams taskID)).now) :
    pollLoop c w taskID (fuel + 1) s
      = some (Except.error (GoError.ctx w.cause),
          afterCall c w s "task_get" (taskGetParams taskID)) := by
  obtain ⟨task, status, hres, hst, hnc, hnf⟩ := isPending_spec _ hp
  obtain ⟨r, hr, hcall⟩ := Call_of_result c w s "task_get" (taskGetParams taskID) _ hres
  have hsel := selectWait_done w _ t hc ht
  simp only [pollLoop, hcall, hr, hst, hnc, hnf, if_false, hsel]

theorem pollLoop_malformed (c : Client) (w : World) (taskID : String) (fuel : Nat) (s : St)
    (v : JValue) (h : (w.exchange s.calls).result? = some v) (hm : malformedTask v = true) :
    ∃ f a, pollLoop c w taskID (fuel + 1) s
        = some (Except.error (GoError.errorString f a),
            afterCall c w s "task_get" (taskGetParams taskID))
      ∧ f ∈ protocolFormats := by
  obtain ⟨r, hr, hcall⟩ := Call_of_result c w s "task_get" (taskGetParams taskID) _ h
  subst hr
  simp only [pollLoop, hcall]
  split
  · rename_i task hres
    split
    · rename_i status hst
      split
      · rename_i hcomp
        split
        · rename_i first rest har
          split
          · rename_i fa
            split
            · rename_i cnt hct
              simp [malformedTask, hres, JValue.isObj, JValue.field, hst, JValue.isStr,
                JValue.isString, hcomp, har, JValue.first?, hct] at hm
            · exact ⟨_, _, rfl, by simp [protocolFormats]⟩
          · exact ⟨_, _, rfl, by simp [protocolFormats]⟩
        · exact ⟨_, _, rfl, by simp [protocolFormats]⟩
      · rename_i hcomp
        simp [malformedTask, hres, JValue.isObj, JValue.field, hst, JValue.isStr,
          JValue.isString, hcomp] at hm
    · exact ⟨_, _, rfl, by simp [protocolFormats]⟩
  · exact ⟨_, _, rfl, by simp [protocolFormats]⟩

/-- C1. For a non-empty message list, when `task_create` returns a string task id and the
first `task_get` returns an object with status "completed" whose artifacts list starts with
an object holding a string content `cnt`, `Generate` returns no error and a response whose
Content is exactly `cnt` (for every positive poll budget). -/
theorem generate_completed_at_first_poll (c : Client) (w : World) (messages : List Message)
    (s : St) (fuel : Nat) (taskID cnt : String) (r0 r1 : JSONRPCResponse)
    (task firstArtifact : List (String × JValue)) (rest : List JValue)
    (hne : messages ≠ []) (hfuel : 0 < fuel)
    (h0 : w.exchange s.calls = Exchange.response r0) (h0e : r0.Error = none)
    (h0r : r0.Result = JValue.str taskID)
    (h1 : w.exchange (s.calls + 1) = Exchange.response r1) (h1e : r1.Error = none)
    (h1r : r1.Result = JValue.obj task)
    (hst : mapIndex task "status" = JValue.str "completed")
    (har : mapIndex task "artifacts" = JValue.arr (JValue.obj firstArtifact :: rest))
    (hct : mapIndex firstArtifact "content" = JValue.str cnt) :
    Generate c w messages fuel s = some (Except.ok { Content := cnt },
      afterCall c w (afterCall c w s "task_create"
        (taskCreateParams (firstText (messages.getLast hne).Parts)))
        "task_get" (taskGetParams taskID)) := by
  obtain ⟨f, rfl⟩ : ∃ f, fuel = f + 1 := ⟨fuel - 1, by omega⟩
  have h1' := Call_response_ok c w (afterCall c w s "task_create"
      (taskCreateParams (firstText (messages.getLast hne).Parts))) "task_get"
      (taskGetParams taskID) r1 h1 h1e
  simp only [Generate, getLast?_of_ne_nil messages hne, Call_response_ok c w s _ _ r0 h0 h0e,
    h0r, pollLoop, h1', h1r, hst, har, hct, if_true]

/-- Witness for C1: the scenario of `TestGenerate`. -/
theorem generate_completed_at_first_poll_witness :
    (Generate testClient testWorld testMessages 1 St.init).map Prod.fst
      = some (Except.ok { Content := "Hello, world!" }) :=
  congrArg (Option.map Prod.fst) <| generate_completed_at_first_poll testClient testWorld testMessages St.init 1
    "test-task-id" "Hello, world!" _ _ testTask [("content", JValue.str "Hello, world!")] []
    (by simp [testMessages]) (by decide) rfl rfl rfl rfl rfl rfl (by simp [testTask, mapIndex])
    (by simp [testTask, mapIndex]) (by simp [mapIndex])

/-- C2, counterexample. A poll answered with status "failed" and a poll answered with a
status that is not a string both make `Generate` return an error of one and the same kind,
a plain `fmt.Errorf` message: the error of a failed task is not of a kind of its own. -/
theorem failed_task_error_kind_counterexample :
    (Generate testClient
        (immediateWorld (okReply (JValue.obj [("status", JValue.str "failed")])))
        testMessages 1 St.init).map Prod.fst
      = some (Except.error (GoError.errorString "task failed: %v"
          [JValue.obj [("status", JValue.str "failed")]]))
    ∧ (Generate testClient
        (immediateWorld (okReply (JValue.obj [("status", JValue.num 7)])))
        testMessages 1 St.init).map Prod.fst
      = some (Except.error (GoError.errorString "unexpected status in task: %v"
          [JValue.obj [("status", JValue.num 7)]]))
    ∧ returnedKind (Generate testClient
        (immediateWorld (okReply (JValue.obj [("status", JValue.str "failed")])))
        testMessages 1 St.init)
      = returnedKind (Generate testClient
        (immediateWorld (okReply (JValue.obj [("status", JValue.num 7)])))
        testMessages 1 St.init) :=
  ⟨rfl, rfl, rfl⟩

/-- C2, amended. For a non-empty message list, when `task_create` succeeded and, after `n`
non-terminal polls, `task_get` returns a task whose status is "failed", `Generate` returns
no response and the error `fmt.Errorf("task failed: %v", task)`, after exactly that call.
This error differs in kind from the error returned when a `Call` fails (a wrapping error
"failed to get task: %w"); it has the same kind as the errors returned for a malformed
result shape and differs from them by its message format only. -/
theorem generate_failed_task_error (c : Client) (w : World) (messages : List Message) (s : St)
    (n fuel : Nat) (taskID : String) (task : List (String × JValue))
    (hne : messages ≠ []) (hfuel : n + 1 ≤ fuel)
    (h0 : (w.exchange s.calls).result? = some (JValue.str taskID))
    (hp : ∀ k, k < n → (w.exchange (s.calls + 1 + k)).isPending = true)
    (hw : ∀ k, k < n → ∀ t, w.cancelAt = some t →
      (atPoll c w messages s taskID (k + 1)).now < t)
    (h1 : (w.exchange (s.calls + 1 + n)).result? = some (JValue.obj task))
    (hst : mapIndex task "status" = JValue.str "failed") :
    Generate c w messages fuel s
        = some (Except.error (GoError.errorString "task failed: %v" [JValue.obj task]),
            atWait c w messages s taskID n)
      ∧ (atWait c w messages s taskID n).calls = s.calls + n + 2
      ∧ (∀ (c2 : Client) (w2 : World) (id2 : String) (f2 : Nat) (s2 : St),
          (w2.exchange s2.calls).result? = none →
          ∃ e st, pollLoop c2 w2 id2 (f2 + 1) s2 = some (Except.error e, st)
            ∧ e.kind = ErrorKind.wrapError
            ∧ e.kind ≠ (GoError.errorString "task failed: %v" [JValue.obj task]).kind)
      ∧ (∀ (c2 : Client) (w2 : World) (id2 : String) (f2 : Nat) (s2 : St) (v : JValue),
          (w2.exchange s2.calls).result? = some v → malformedTask v = true →
          ∃ e st, pollLoop c2 w2 id2 (f2 + 1) s2 = some (Except.error e, st)
            ∧ e.kind = (GoError.errorString "task failed: %v" [JValue.obj task]).kind
            ∧ e.format ≠ (GoError.errorString "task failed: %v" [JValue.obj task]).format) := by
  obtain ⟨f, rfl⟩ : ∃ f, fuel = n + (f + 1) := ⟨fuel - (n + 1), by omega⟩
  refine ⟨?_, atWait_calls c w messages s taskID n, ?_, ?_⟩
  · rw [Generate_reaches_poll c w messages s n (f + 1) taskID hne h0 hp hw]
    exact pollLoop_failed c w taskID f _ task (by rw [atPoll_calls]; exact h1) hst
  · intro c2 w2 id2 f2 s2 hnone
    obtain ⟨inner, s1, hrun, _, _⟩ := pollLoop_call_failed c2 w2 id2 f2 s2 hnone
    exact ⟨_, s1, hrun, rfl, by simp [GoError.kind]⟩
  · intro c2 w2 id2 f2 s2 v hv hm
    obtain ⟨fm, a, hrun, hfm⟩ := pollLoop_malformed c2 w2 id2 f2 s2 v hv hm
    refine ⟨_, _, hrun, rfl, ?_⟩
    simp only [protocolFormats, List.mem_cons, List.mem_singleton, List.not_mem_nil,
      or_false] at hfm
    rcases hfm with h | h | h | h | h <;> subst h <;> simp [GoError.format]

/-- Witness for C2 (amended): one non-terminal poll, then a failed task. -/
theorem generate_failed_task_error_witness :
    Generate testClient
        (scriptedWorld (okReply (JValue.obj [("status", JValue.str "failed")])) none)
        testMessages 2 St.init
      = some (Except.error (GoError.errorString "task failed: %v"
            [JValue.obj [("status", JValue.str "failed")]]),
          atWait testClient
            (scriptedWorld (okReply (JValue.obj [("status", JValue.str "failed")])) none)
            testMessages St.init "test-task-id" 1) :=
  (generate_failed_task_error testClient
    (scriptedWorld (okReply (JValue.obj [("status", JValue.str "failed")])) none)
    testMessages St.init 1 2 "test-task-id" [("status", JValue.str "failed")]
    (by simp [testMessages]) (by decide) rfl
    (fun k hk => by have hk0 : k = 0 := by omega
                    subst hk0; rfl)
    (fun _ _ t ht => by simp [scriptedWorld] at ht)
    rfl rfl).1

/-- C4. `Generate` checks the cancellation signal between every two consecutive polls: when
polls `0 .. n` are all non-terminal, the waits after polls `0 .. n - 1` ran to their end,
and the context is already done at the instant `Generate` reaches the wait that follows
poll `n`, then `Generate` returns no response and exactly the context's error `ctx.Err()`,
having sent the `task_create` request and `n + 1` `task_get` requests and nothing after
them, and having completed `n` waits. -/
theorem generate_cancelled_at_wait (c : Client) (w : World) (messages : List Message)
    (s : St) (n fuel t : Nat) (taskID : String)
    (hne : messages ≠ []) (hfuel : n + 1 ≤ fuel)
    (h0 : (w.exchange s.calls).result? = some (JValue.str taskID))
    (hp : ∀ k, k < n + 1 → (w.exchange (s.calls + 1 + k)).isPending = true)
    (hc : w.cancelAt = some t)
    (hw : ∀ k, k < n → (atPoll c w messages s taskID (k + 1)).now < t)
    (hdone : t ≤ (atWait c w messages s taskID n).now) :
    ∃ s', Generate c w messages fuel s = some (Except.error (GoError.ctx w.cause), s')
      ∧ s'.sent = s.sent ++ createRequest c messages ::
          List.replicate (n + 1) (getRequest c taskID)
      ∧ s'.calls = s.calls + n + 2
      ∧ s'.waits = s.waits ++ List.replicate n (1 * Second) := by
  obtain ⟨f, rfl⟩ : ∃ f, fuel = n + (f + 1) := ⟨fuel - (n + 1), by omega⟩
  refine ⟨atWait c w messages s taskID n, ?_, atWait_sent c w messages s taskID n,
    atWait_calls c w messages s taskID n, atWait_waits c w messages s taskID n⟩
  rw [Generate_reaches_poll c w messages s n (f + 1) taskID hne h0
    (fun k hk => hp k (by omega))
    (fun k hk t' ht' => by
      rw [hc] at ht'
      cases ht'
      exact hw k hk)]
  exact pollLoop_cancelled c w taskID f _ t
    (by rw [atPoll_calls]; exact hp n (by omega)) hc hdone

/-- Witness for C4: both polls find the task in status "working", and the context becomes
done at the instant the second answer has been processed. -/
theorem generate_cancelled_at_wait_witness :
    ∃ s', Generate testClient
        (scriptedWorld (okReply (JValue.obj [("status", JValue.str "working")]))
          (some 1003000000))
        testMessages 5 St.init = some (Except.error (GoError.ctx CtxError.Canceled), s')
      ∧ s'.sent = St.init.sent ++ createRequest testClient testMessages ::
          List.replicate (1 + 1) (getRequest testClient "test-task-id")
      ∧ s'.calls = St.init.calls + 1 + 2
      ∧ s'.waits = St.init.waits ++ List.replicate 1 (1 * Second) :=
  generate_cancelled_at_wait testClient
    (scriptedWorld (okReply (JValue.obj [("status", JValue.str "working")]))
      (some 1003000000))
    testMessages St.init 1 5 1003000000 "test-task-id"
    (by simp [testMessages]) (by decide) rfl
    (fun k hk => by
      have hk' : k = 0 ∨ k = 1 := by omega
      rcases hk' with h | h <;> subst h <;> rfl)
    rfl
    (fun k hk => by have hk0 : k = 0 := by omega
                    subst hk0; decide)
    (by decide)

/-- C5. A malformed response shape is never retried. For a non-empty message list:
(a) when the `task_create` result is not a string, `Generate` returns an error and no
response after that single call; (b) when `task_create` succeeded and, after `n`
non-terminal polls, a `task_get` result is malformed (not an object, status not a string,
or "completed" with missing or empty artifacts, a first artifact that is not an object, or a
first artifact whose content is not a string), `Generate` returns an error and no response,
and the malformed response is the answer to the last request it sent. -/
theorem generate_malformed_not_retried (c : Client) (w : World) (messages : List Message)
    (s : St) (fuel : Nat) (hne : messages ≠ []) :
    (∀ v, (w.exchange s.calls).result? = some v → v.isStr = false →
      ∃ s', Generate c w messages fuel s
          = some (Except.error (GoError.errorString
              "unexpected result from task_create: %v" [v]), s')
        ∧ s'.sent = s.sent ++ [createRequest c messages]
        ∧ s'.calls = s.calls + 1 ∧ s'.waits = s.waits)
    ∧ (∀ (n : Nat) (taskID : String) (v : JValue), n + 1 ≤ fuel →
      (w.exchange s.calls).result? = some (JValue.str taskID) →
      (∀ k, k < n → (w.exchange (s.calls + 1 + k)).isPending = true) →
      (∀ k, k < n → ∀ t, w.cancelAt = some t →
        (atPoll c w messages s taskID (k + 1)).now < t) →
      (w.exchange (s.calls + 1 + n)).result? = some v → malformedTask v = true →
      ∃ f a s', Generate c w messages fuel s
          = some (Except.error (GoError.errorString f a), s')
        ∧ f ∈ protocolFormats
        ∧ s'.sent = s.sent ++ createRequest c messages ::
            List.replicate (n + 1) (getRequest c taskID)
        ∧ s'.calls = s.calls + n + 2
        ∧ s'.waits = s.waits ++ List.replicate n (1 * Second)) := by
  constructor
  · intro v hv hstr
    obtain ⟨r, hr, hcall⟩ := Call_of_result c w s "task_create"
      (taskCreateParams (firstText (messages.getLast hne).Parts)) _ hv
    refine ⟨afterCall c w s "task_create" (taskCreateParams (lastText messages)), ?_,
      ?_, rfl, rfl⟩
    · simp only [Generate, getLast?_of_ne_nil messages hne, hcall, hr, lastText]
      cases v <;> first | rfl | simp [JValue.isStr] at hstr
    · rfl
  · intro n taskID v hfuel h0 hp hw hv hm
    obtain ⟨f, rfl⟩ : ∃ f, fuel = n + (f + 1) := ⟨fuel - (n + 1), by omega⟩
    obtain ⟨fm, a, hrun, hfm⟩ := pollLoop_malformed c w taskID f
      (atPoll c w messages s taskID n) v (by rw [atPoll_calls]; exact hv) hm
    refine ⟨fm, a, atWait c w messages s taskID n, ?_, hfm,
      atWait_sent c w messages s taskID n, atWait_calls c w messages s taskID n,
      atWait_waits c w messages s taskID n⟩
    rw [Generate_reaches_poll c w messages s n (f + 1) taskID hne h0 hp hw]
    exact hrun

/-- Witness for C5: after one non-terminal poll the agent reports a completed task without
artifacts; the run ends there, with the three requests sent so far. -/
theorem generate_malformed_not_retried_witness :
    ∃ f a s', Generate testClient
        (scriptedWorld (okReply (JValue.obj [("status", JValue.str "completed")])) none)
        testMessages 7 St.init = some (Except.error (GoError.errorString f a), s')
      ∧ f ∈ protocolFormats
      ∧ s'.sent = St.init.sent ++ createRequest testClient testMessages ::
          List.replicate (1 + 1) (getRequest testClient "test-task-id")
      ∧ s'.calls = St.init.calls + 1 + 2
      ∧ s'.waits = St.init.waits ++ List.replicate 1 (1 * Second) :=
  (generate_malformed_not_retried testClient
    (scriptedWorld (okReply (JValue.obj [("status", JValue.str "completed")])) none)
    testMessages St.init 7 (by simp [testMessages])).2 1 "test-task-id"
    (JValue.obj [("status", JValue.str "completed")]) (by decide) rfl
    (fun k hk => by have hk0 : k = 0 := by omega
                    subst hk0; rfl)
    (fun _ _ t ht => by simp [scriptedWorld] at ht)
    rfl rfl

/-- C6. For every method and params, the envelope `Call` builds has jsonrpc "2.0", the given
method, the given params and id 1; unless marshalling or building the HTTP request fails
(then nothing is sent), `Call` hands the transport exactly one request: a POST to the
client's endpoint with header Content-Type: application/json and that envelope as body. -/
theorem call_builds_jsonrpc_post (c : Client) (w : World) (s : St) (method : String)
    (params : JValue) :
    Call.envelope method params
        = { JSONRPC := "2.0", Method := method, Params := params, ID := 1 }
      ∧ (match w.exchange s.calls with
        | Exchange.marshalFailed _ => (Call c w s method params).2.sent = s.sent
        | Exchange.newRequestFailed _ => (Call c w s method params).2.sent = s.sent
        | _ =>
          (Call c w s method params).2.sent = s.sent ++
            [{ Method := "POST", URL := c.Endpoint,
               Header := [("Content-Type", "application/json")],
               Body := { JSONRPC := "2.0", Method := method, Params := params, ID := 1 } }]) := by
  refine ⟨rfl, ?_⟩
  cases hx : w.exchange s.calls with
  | response r =>
    cases he : r.Error <;> simp [Call, hx, he, Call.httpRequest, Call.envelope]
  | marshalFailed e => simp [Call, hx]
  | newRequestFailed e => simp [Call, hx]
  | sendFailed e => simp [Call, hx, Call.httpRequest, Call.envelope]
  | decodeFailed e => simp [Call, hx, Call.httpRequest, Call.envelope]

/-- C7. When the transport succeeds and the body decodes to the response `r`, `Call` returns
an error if and only if `r` carries an error object; it then returns no response and that
very error object, whose message is "jsonrpc: code <code>, message: <message>", whatever
`r.Result` is; otherwise it returns `r` and no error. -/
theorem call_error_iff_error_object (c : Client) (w : World) (s : St) (method : String)
    (params : JValue) (r : JSONRPCResponse) (h : w.exchange s.calls = Exchange.response r) :
    ((∃ e, (Call c w s method params).1 = Except.error e) ↔ r.Error ≠ none)
      ∧ (∀ e, r.Error = some e →
          (Call c w s method params).1 = Except.error (GoError.rpc e)
          ∧ e.Error = "jsonrpc: code " ++ toString e.Code ++ ", message: " ++ e.Message)
      ∧ (r.Error = none → (Call c w s method params).1 = Except.ok r) := by
  cases he : r.Error with
  | none => simp [Call, h, he]
  | some e =>
    refine ⟨?_, ?_, ?_⟩
    · simp [Call, h, he]
    · intro e' he'
      cases he'
      exact ⟨by simp [Call, h, he], rfl⟩
    · intro hn
      cases hn

/-- Witness for C7: a response that carries both a result and an error object. -/
theorem call_error_iff_error_object_witness :
    (Call testClient errorObjectWorld St.init "task_get" (taskGetParams "test-task-id")).1
      = Except.error (GoError.rpc { Code := -32000, Message := "boom", Data := JValue.null })
    ∧ Error.Error { Code := -32000, Message := "boom", Data := JValue.null }
      = "jsonrpc: code -32000, message: boom" :=
  (call_error_iff_error_object testClient errorObjectWorld St.init "task_get"
    (taskGetParams "test-task-id") _ rfl).2.1 _ rfl

theorem Call_sent (c : Client) (w : World) (s : St) (method : String) (params : JValue) :
    ∃ l, (Call c w s method params).2.sent = s.sent ++ l := by
  unfold Call
  cases hx : w.exchange s.calls with
  | response r =>
    cases he : r.Error with
    | none => simp only [he]; exact ⟨_, rfl⟩
    | some e => simp only [he]; exact ⟨_, rfl⟩
  | marshalFailed e => exact ⟨[], by simp⟩
  | newRequestFailed e => exact ⟨[], by simp⟩
  | sendFailed e => exact ⟨_, rfl⟩
  | decodeFailed e => exact ⟨_, rfl⟩

theorem pollLoop_sent (c : Client) (w : World) (taskID : String) :
    ∀ (fuel : Nat) (s : St) (res : Except GoError ProviderResponse) (s' : St),
      pollLoop c w taskID fuel s = some (res, s') → ∃ rest, s'.sent = s.sent ++ rest := by
  intro fuel
  induction fuel with
  | zero => intro s res s' h; simp [pollLoop] at h
  | succ fuel ih =>
    intro s res s' h
    obtain ⟨l, hl⟩ := Call_sent c w s "task_get" (taskGetParams taskID)
    unfold pollLoop at h
    split at h
    · rename_i err s1 heq
      rw [heq] at hl
      simp only [Option.some.injEq, Prod.mk.injEq] at h
      exact ⟨l, by rw [← h.2]; exact hl⟩
    · rename_i taskResult s1 heq
      rw [heq] at hl
      repeat' split at h
      all_goals first
        | (simp only [Option.some.injEq, Prod.mk.injEq] at h
           exact ⟨l, by rw [← h.2]; exact hl⟩)
        | (obtain ⟨rest, hrest⟩ := ih _ _ _ h
           have hl' : s1.sent = s.sent ++ l := hl
           exact ⟨l ++ rest, by rw [hrest]; simp only [hl', List.append_assoc]⟩)

theorem firstText_append_text (pre later : List ContentPart) (t : String)
    (hpre : ∀ p, p ∈ pre → ∃ tag, p = ContentPart.other tag) :
    firstText (pre ++ ContentPart.TextContent t :: later) = t := by
  induction pre with
  | nil => rfl
  | cons p pre ih =>
    obtain ⟨tag, rfl⟩ := hpre p (List.mem_cons_self _ _)
    exact ih (fun q hq => hpre q (List.mem_cons_of_mem _ hq))

theorem firstText_no_text (parts : List ContentPart)
    (h : ∀ p, p ∈ parts → ∃ tag, p = ContentPart.other tag) : firstText parts = "" := by
  induction parts with
  | nil => rfl
  | cons p parts ih =>
    obtain ⟨tag, rfl⟩ := h p (List.mem_cons_self _ _)
    exact ih (fun q hq => h q (List.mem_cons_of_mem _ hq))

theorem lastText_eq (messages : List Message) (hne : messages ≠ []) :
    lastText messages = firstText (messages.getLast hne).Parts := by
  simp only [lastText, getLast?_of_ne_nil messages hne]

theorem Generate_sent (c : Client) (w : World) (messages : List Message) (fuel : Nat) (s : St)
    (res : Except GoError ProviderResponse) (s' : St) (hne : messages ≠ [])
    (h : Generate c w messages fuel s = some (res, s')) :
    ((∃ e, w.exchange s.calls = Exchange.marshalFailed e
          ∨ w.exchange s.calls = Exchange.newRequestFailed e) ∧ s'.sent = s.sent)
      ∨ ∃ rest, s'.sent = s.sent ++ createRequest c messages :: rest := by
  have hreq : Call.httpRequest c (Call.envelope "task_create"
      (taskCreateParams (firstText (messages.getLast hne).Parts))) = createRequest c messages := by
    simp only [createRequest, lastText_eq messages hne]
  simp only [Generate, getLast?_of_ne_nil messages hne, Call] at h
  cases hx : w.exchange s.calls with
  | marshalFailed e =>
    simp only [hx, Option.some.injEq, Prod.mk.injEq] at h
    exact Or.inl ⟨⟨e, Or.inl rfl⟩, by rw [← h.2]⟩
  | newRequestFailed e =>
    simp only [hx, Option.some.injEq, Prod.mk.injEq] at h
    exact Or.inl ⟨⟨e, Or.inr rfl⟩, by rw [← h.2]⟩
  | sendFailed e =>
    simp only [hx, Option.some.injEq, Prod.mk.injEq] at h
    exact Or.inr ⟨[], by rw [← h.2, ← hreq]⟩
  | decodeFailed e =>
    simp only [hx, Option.some.injEq, Prod.mk.injEq] at h
    exact Or.inr ⟨[], by rw [← h.2, ← hreq]⟩
  | response r =>
    simp only [hx] at h
    cases he : r.Error with
    | some e =>
      simp only [he, Option.some.injEq, Prod.mk.injEq] at h
      exact Or.inr ⟨[], by rw [← h.2, ← hreq]⟩
    | none =>
      simp only [he] at h
      split at h
      · obtain ⟨rest, hrest⟩ := pollLoop_sent c w _ fuel _ res s' h
        exact Or.inr ⟨rest, by rw [hrest, ← hreq]; simp only [List.append_assoc,
          List.singleton_append]⟩
      · simp only [Option.some.injEq, Prod.mk.injEq] at h
        exact Or.inr ⟨[], by rw [← h.2, ← hreq]⟩

/-- C14. For every non-empty message list, with `lastText messages` the text that is the
Text of the first text part of the last message, whatever parts follow it, and the empty
string when the last message has no text part: whatever the poll budget and whether or not
the run ever returns, `Generate` starts with the `Call` of method "task_create" whose params
are exactly title "Generate response" and description that text, and goes on from the
outcome of that call alone (a failed call is returned wrapped, a string result is the task
id polled from the state the call left, any other result is an error); unless marshalling
or request construction fails, that call hands the transport exactly the POST request
carrying those params; the whole run depends on the message list through that text alone;
and every run that returns has either sent nothing (marshalling or request construction
failed) or sent that request first. -/
theorem generate_create_params (c : Client) (w : World) (messages : List Message)
    (fuel : Nat) (s : St) (hne : messages ≠ []) :
    (∀ pre t later, (messages.getLast hne).Parts = pre ++ ContentPart.TextContent t :: later →
        (∀ p, p ∈ pre → ∃ tag, p = ContentPart.other tag) → lastText messages = t)
      ∧ ((∀ p, p ∈ (messages.getLast hne).Parts → ∃ tag, p = ContentPart.other tag) →
        lastText messages = "")
      ∧ Generate c w messages fuel s
        = (match Call c w s "task_create"
              (JValue.obj [("title", JValue.str "Generate response"),
                           ("description", JValue.str (lastText messages))]) with
           | (Except.error err, s1) =>
             some (Except.error (GoError.wrapError "failed to create task: %w" err), s1)
           | (Except.ok resp, s1) =>
             match resp.Result with
             | JValue.str taskID => pollLoop c w taskID fuel s1
             | v =>
               some (Except.error (GoError.errorString
                 "unexpected result from task_create: %v" [v]), s1))
      ∧ (((∃ e, w.exchange s.calls = Exchange.marshalFailed e
              ∨ w.exchange s.calls = Exchange.newRequestFailed e)
            ∧ (Call c w s "task_create"
                (JValue.obj [("title", JValue.str "Generate response"),
                             ("description", JValue.str (lastText messages))])).2.sent = s.sent)
          ∨ (Call c w s "task_create"
                (JValue.obj [("title", JValue.str "Generate response"),
                             ("description", JValue.str (lastText messages))])).2.sent
              = s.sent ++
                [{ Method := "POST", URL := c.Endpoint,
                   Header := [("Content-Type", "application/json")],
                   Body := { JSONRPC := "2.0", Method := "task_create",
                             Params := JValue.obj [("title", JValue.str "Generate response"),
                                                   ("description",
                                                     JValue.str (lastText messages))],
                             ID := 1 } }])
      ∧ Generate c w messages fuel s
        = Generate c w [{ Parts := [ContentPart.TextContent (lastText messages)] }] fuel s
      ∧ (∀ res s', Generate c w messages fuel s = some (res, s') →
        ((∃ e, w.exchange s.calls = Exchange.marshalFailed e
            ∨ w.exchange s.calls = Exchange.newRequestFailed e) ∧ s'.sent = s.sent)
        ∨ ∃ rest, s'.sent = s.sent ++
            { Method := "POST", URL := c.Endpoint,
              Header := [("Content-Type", "application/json")],
              Body := { JSONRPC := "2.0", Method := "task_create",
                        Params := JValue.obj [("title", JValue.str "Generate response"),
                                              ("description", JValue.str (lastText messages))],
                        ID := 1 } } :: rest) := by
  refine ⟨?_, ?_, ?_, ?_, ?_, ?_⟩
  · intro pre t later hparts hpre
    rw [lastText_eq messages hne, hparts]
    exact firstText_append_text pre later t hpre
  · intro hno
    rw [lastText_eq messages hne]
    exact firstText_no_text _ hno
  · simp only [Generate, getLast?_of_ne_nil messages hne, lastText_eq messages hne,
      taskCreateParams]
  · simp only [Call]
    cases hx : w.exchange s.calls with
    | marshalFailed e => exact Or.inl ⟨⟨e, Or.inl rfl⟩, rfl⟩
    | newRequestFailed e => exact Or.inl ⟨⟨e, Or.inr rfl⟩, rfl⟩
    | sendFailed e => exact Or.inr rfl
    | decodeFailed e => exact Or.inr rfl
    | response r =>
      cases he : r.Error with
      | some e => simp only [he]; exact Or.inr rfl
      | none => simp only [he]; exact Or.inr rfl
  · simp only [Generate, getLast?_of_ne_nil messages hne, lastText_eq messages hne,
      List.getLast?_singleton, firstText]
  · intro res s' h
    exact Generate_sent c w messages fuel s res s' hne h

/-- Witness for C14: an earlier message and, in the last message, an attachment before the
text "Hello" and a second text after it. Run against the mock agent of the test, `Generate`
returns "Hello, world!" having sent first the `task_create` request whose description is
"Hello", then one `task_get` request. -/
theorem generate_create_params_witness :
    Generate testClient testWorld
        [{ Parts := [ContentPart.TextContent "earlier"] },
         { Parts := [ContentPart.other "image", ContentPart.TextContent "Hello",
                     ContentPart.TextContent "later"] }] 1 St.init
      = some (Except.ok { Content := "Hello, world!" },
          { now := 0, calls := 2,
            sent :=
              [{ Method := "POST", URL := "http://127.0.0.1:0",
                 Header := [("Content-Type", "application/json")],
                 Body := { JSONRPC := "2.0", Method := "task_create",
                           Params := JValue.obj [("title", JValue.str "Generate response"),
                                                 ("description", JValue.str "Hello")],
                           ID := 1 } },
               { Method := "POST", URL := "http://127.0.0.1:0",
                 Header := [("Content-Type", "application/json")],
                 Body := { JSONRPC := "2.0", Method := "task_get",
                           Params := JValue.obj [("task_id", JValue.str "test-task-id")],
                           ID := 1 } }],
            waits := [] }) :=
  (generate_create_params testClient testWorld
    [{ Parts := [ContentPart.TextContent "earlier"] },
     { Parts := [ContentPart.other "image", ContentPart.TextContent "Hello",
                 ContentPart.TextContent "later"] }] 1 St.init (by simp)).2.2.1.trans rfl

/-- C17. For an empty message list `Generate` returns the error "no messages to generate
from" and no response, and the state is untouched: no call is made, no request is sent and
no wait is started, whatever the poll budget. -/
theorem generate_empty_messages (c : Client) (w : World) (fuel : Nat) (s : St) :
    Generate c w [] fuel s
      = some (Except.error (GoError.errorString "no messages to generate from" []), s) :=
  rfl

end A2A

/-! ## Theorems about `events.go` -/

set_option maxRecDepth 4000

namespace TUI

open A2A (GoError CtxError)

theorem bitLengthAux_le (fuel : Nat) : ∀ (n k : Nat), n < 2 ^ k → bitLengthAux fuel n ≤ k := by
  induction fuel with
  | zero => intro n k _; exact Nat.zero_le k
  | succ fuel ih =>
    intro n k h
    unfold bitLengthAux
    split_ifs with h0
    · exact Nat.zero_le k
    · cases k with
      | zero => simp at h; exact absurd h h0
      | succ k =>
        have hhalf : n / 2 < 2 ^ k := by
          rw [pow_succ] at h
          omega
        exact Nat.succ_le_succ (ih (n / 2) k hhalf)

theorem bitLength_le (n k : Nat) (h : n < 2 ^ k) : bitLength n ≤ k :=
  bitLengthAux_le n n k h

theorem roundTo53_of_lt (n : Nat) (h : n < 2 ^ 53) : roundTo53 n = n := by
  have hs : bitLength n ≤ 53 := bitLength_le n 53 h
  have hsh : bitLength n - 53 = 0 := by omega
  simp [roundTo53, hsh, Nat.mod_one]

theorem roundTo53_le (N M : Nat) (hsize : bitLength N ≤ 106) (h : N ≤ M * 2 ^ 53) :
    roundTo53 N ≤ M * 2 ^ 53 := by
  unfold roundTo53
  generalize hsh : bitLength N - 53 = sh
  have hle : sh ≤ 53 := by omega
  have hP : 0 < 2 ^ sh := Nat.two_pow_pos sh
  have hM : M * 2 ^ 53 = (M * 2 ^ (53 - sh)) * 2 ^ sh := by
    rw [Nat.mul_assoc, ← pow_add]
    congr 2
    omega
  rw [hM] at h ⊢
  generalize M * 2 ^ (53 - sh) = M' at h ⊢
  have hq : N / 2 ^ sh ≤ M' := Nat.div_le_of_le_mul (by rw [Nat.mul_comm]; exact h)
  simp only []
  split_ifs with hc
  · apply Nat.mul_le_mul_right
    by_contra hlt
    have hqe : N / 2 ^ sh = M' := by omega
    have hN : M' * 2 ^ sh ≤ N := by rw [← hqe]; exact Nat.div_mul_le_self N _
    have hNe : N = M' * 2 ^ sh := le_antisymm h hN
    have hr : N % 2 ^ sh = 0 := by rw [hNe]; exact Nat.mul_mod_left _ _
    rw [hr] at hc
    omega
  · exact Nat.mul_le_mul_right _ hq

theorem threshold95_le (cw t : Int) (h0 : 0 ≤ cw) (h1 : cw < 2 ^ 53)
    (h : 95 * cw ≤ 100 * t) : threshold95 cw ≤ t := by
  obtain ⟨X, rfl⟩ := Int.eq_ofNat_of_zero_le h0
  have ht : 0 ≤ t := by omega
  obtain ⟨T, rfl⟩ := Int.eq_ofNat_of_zero_le ht
  have hX : X < 2 ^ 53 := by exact_mod_cast h1
  have hXT : 95 * X ≤ 100 * T := by exact_mod_cast h
  have hneg : ¬ ((X : Int) < 0) := by omega
  simp only [threshold95, Int.natAbs_ofNat, hneg, if_false, roundTo53_of_lt X hX]
  have hN : X * mant95 ≤ T * 2 ^ 53 := by
    have : X * mant95 * 100 ≤ T * 2 ^ 53 * 100 := by
      have e1 : X * mant95 * 100 ≤ 95 * X * 2 ^ 53 := by
        simp only [mant95]
        nlinarith
      have e2 : 95 * X * 2 ^ 53 ≤ 100 * T * 2 ^ 53 := Nat.mul_le_mul_right _ hXT
      calc X * mant95 * 100 ≤ 95 * X * 2 ^ 53 := e1
        _ ≤ 100 * T * 2 ^ 53 := e2
        _ = T * 2 ^ 53 * 100 := by ring
    omega
  have hsize : bitLength (X * mant95) ≤ 106 := by
    apply bitLength_le
    have hm : mant95 < 2 ^ 53 := by decide
    calc X * mant95 < 2 ^ 53 * 2 ^ 53 := Nat.mul_lt_mul'' hX hm
      _ = 2 ^ 106 := by norm_num
  have hr := roundTo53_le (X * mant95) T hsize hN
  have hdiv : roundTo53 (X * mant95) / 2 ^ 53 ≤ T :=
    Nat.div_le_of_le_mul (by rw [Nat.mul_comm (2 ^ 53) T]; exact hr)
  exact_mod_cast hdiv

theorem dialogBlock_keepsSession (s : Session) (shown : Bool) (d : Component) (msg : Msg)
    (r : Except (AppModel × Cmd) (AppModel × List Cmd)) (h : keepsSession s r) :
    keepsSession s (r >>= dialogBlock shown d msg) := by
  cases r with
  | error x => exact h
  | ok x =>
    show keepsSession s (dialogBlock shown d msg x)
    unfold dialogBlock
    cases shown <;> cases msg.isKeyMsg <;> exact h

theorem tail_SelectedSession (a : AppModel) (msg : Msg) (cmds : List Cmd) :
    (Update.tail a msg cmds).1.SelectedSession = a.SelectedSession := by
  have h0 : keepsSession a.SelectedSession
      (dialogBlock a.ShowFilepicker Component.Filepicker msg (a, cmds)) := by
    have := dialogBlock_keepsSession a.SelectedSession a.ShowFilepicker Component.Filepicker
      msg (Except.ok (a, cmds)) rfl
    exact this
  have h8 := dialogBlock_keepsSession _ a.ShowTheme Component.Theme msg _
    (dialogBlock_keepsSession _ a.ShowInit Component.Init msg _
    (dialogBlock_keepsSession _ a.ShowModel Component.Model msg _
    (dialogBlock_keepsSession _ a.ShowCommand Component.Command msg _
    (dialogBlock_keepsSession _ a.ShowSession Component.Session msg _
    (dialogBlock_keepsSession _ a.ShowPermissions Component.Permissions msg _
    (dialogBlock_keepsSession _ a.ShowQuit Component.Quit msg _ h0))))))
  unfold Update.tail
  simp only []
  generalize (dialogBlock a.ShowFilepicker Component.Filepicker msg (a, cmds)
      >>= dialogBlock a.ShowQuit Component.Quit msg
      >>= dialogBlock a.ShowPermissions Component.Permissions msg
      >>= dialogBlock a.ShowSession Component.Session msg
      >>= dialogBlock a.ShowCommand Component.Command msg
      >>= dialogBlock a.ShowModel Component.Model msg
      >>= dialogBlock a.ShowInit Component.Init msg
      >>= dialogBlock a.ShowTheme Component.Theme msg) = run at h8 ⊢
  cases run with
  | error x => exact h8
  | ok x => exact h8

/-- C8, counterexample. (1) Session "s1" is selected and has used 195000 tokens, at least
95% of the context window of 200000; auto-compaction is on; the event is done, of kind
response, and carries an error: `Update` returns the error report, not the start-compaction
message. (2) With a context window of 48495294637973935 and 46070529906075239 tokens used,
which is at least 95% of the window, an error-free done response event yields no command:
the float64 product `float64(contextWindow)*0.95` is 46070529906075240. -/
theorem done_response_without_compaction_counterexample :
    (busyModel.SelectedSession.ID ≠ "" ∧ busyModel.App.AutoCompact = true
      ∧ 95 * busyModel.App.ContextWindow ≤ 100 * busyModel.tokens
      ∧ (Update busyModel (Msg.AgentEvent
          { Type_ := EventType.CreatedEvent,
            Payload := { Type_ := AgentEventType.AgentEventTypeResponse,
                         Error := some (GoError.lib "connection reset"),
                         Progress := "", Done := true } })).2
        = Cmd.ReportError (GoError.lib "connection reset")
      ∧ Cmd.ReportError (GoError.lib "connection reset")
        ≠ Cmd.CmdHandler Msg.startCompactSessionMsg)
    ∧ (hugeWindowModel.SelectedSession.ID ≠ "" ∧ hugeWindowModel.App.AutoCompact = true
      ∧ 95 * hugeWindowModel.App.ContextWindow ≤ 100 * hugeWindowModel.tokens
      ∧ threshold95 hugeWindowModel.App.ContextWindow = 46070529906075240
      ∧ (Update hugeWindowModel (Msg.AgentEvent
          { Type_ := EventType.CreatedEvent,
            Payload := { Type_ := AgentEventType.AgentEventTypeResponse, Error := none,
                         Progress := "", Done := true } })).2
        = Cmd.nil
      ∧ Cmd.nil ≠ Cmd.CmdHandler Msg.startCompactSessionMsg) :=
  ⟨⟨by decide, rfl, by decide, rfl, fun h => Cmd.noConfusion h⟩,
   ⟨by decide, rfl, by decide, by decide, rfl, fun h => Cmd.noConfusion h⟩⟩

/-- C8, amended. For every UI state with a non-empty selected session and auto-compaction
on, when `Update` handles an agent event that carries no error, is done and is of kind
response, and the `int64` sum PromptTokens + CompletionTokens of the selected session is at
or above 95% of the active model's ContextWindow (a window from 0 to below 2^53, where the
conversion to float64 is exact), `Update` returns the command that delivers
`startCompactSessionMsg`; the state only takes the event's progress text. -/
theorem done_response_starts_compaction (a : AppModel) (ev : Event AgentEvent)
    (hsel : a.SelectedSession.ID ≠ "") (hauto : a.App.AutoCompact = true)
    (herr : ev.Payload.Error = none) (hdone : ev.Payload.Done = true)
    (htype : ev.Payload.Type_ = AgentEventType.AgentEventTypeResponse)
    (hcw0 : 0 ≤ a.App.ContextWindow) (hcw1 : a.App.ContextWindow < 2 ^ 53)
    (htok : 95 * a.App.ContextWindow ≤ 100 * a.tokens) :
    Update a (Msg.AgentEvent ev)
      = ({ a with CompactingMessage := ev.Payload.Progress },
          Cmd.CmdHandler Msg.startCompactSessionMsg) := by
  have hthr : threshold95 a.App.ContextWindow ≤ a.tokens :=
    threshold95_le _ _ hcw0 hcw1 htok
  have hthr' : threshold95 a.App.ContextWindow
      ≤ AppModel.tokens { a with CompactingMessage := ev.Payload.Progress } := hthr
  have hns : ¬ (AgentEventType.AgentEventTypeResponse
      = AgentEventType.AgentEventTypeSummarize) := by decide
  simp only [Update, Update.agentEvent, herr, hdone, htype, hns, and_false, if_false,
    true_and, ne_eq, hsel, not_false_eq_true, if_true, hthr', hauto, and_self]

/-- Witness for C8 (amended): the same state and an error-free done response event. -/
theorem done_response_starts_compaction_witness :
    Update busyModel (Msg.AgentEvent
        { Type_ := EventType.CreatedEvent,
          Payload := { Type_ := AgentEventType.AgentEventTypeResponse, Error := none,
                       Progress := "done", Done := true } })
      = ({ busyModel with CompactingMessage := "done" },
          Cmd.CmdHandler Msg.startCompactSessionMsg) :=
  done_response_starts_compaction busyModel _ (by decide) rfl rfl rfl rfl (by decide)
    (by decide) (by decide)

/-- C9, counterexample. An agent event whose error is the cancellation error
`context.Canceled` is answered with `util.ReportError` of that error, the report used for
every failure. -/
theorem cancellation_reported_as_error_counterexample :
    (Update busyModel (Msg.AgentEvent
        { Type_ := EventType.CreatedEvent,
          Payload := { Type_ := AgentEventType.other "error",
                       Error := some (GoError.ctx CtxError.Canceled),
                       Progress := "", Done := false } })).2
      = Cmd.ReportError (GoError.ctx CtxError.Canceled) :=
  rfl

/-- C9, amended. When `Update` handles an agent event that carries an error, a cancellation
like any other, it clears IsCompacting, changes nothing else, and returns
`util.ReportError` of that error; this case has no separate "stopped" report. -/
theorem agent_error_reported (a : AppModel) (ev : Event AgentEvent) (err : GoError)
    (herr : ev.Payload.Error = some err) :
    Update a (Msg.AgentEvent ev) = ({ a with IsCompacting := false }, Cmd.ReportError err) := by
  simp only [Update, Update.agentEvent, herr]

/-- Witness for C9 (amended): a deadline error during summarization. -/
theorem agent_error_reported_witness :
    Update busyModel (Msg.AgentEvent
        { Type_ := EventType.CreatedEvent,
          Payload := { Type_ := AgentEventType.AgentEventTypeSummarize,
                       Error := some (GoError.ctx CtxError.DeadlineExceeded),
                       Progress := "half way", Done := true } })
      = ({ busyModel with IsCompacting := false },
          Cmd.ReportError (GoError.ctx CtxError.DeadlineExceeded)) :=
  agent_error_reported busyModel _ _ rfl

/-- C10, counterexample. In a state where the coder agent is busy and session "s1" is
selected, handling `chat.SessionSelectedMsg` for session "s2" makes "s2" the selected
session. -/
theorem session_switched_while_busy_counterexample :
    busyModel.App.CoderAgentIsBusy = true
      ∧ (Update busyModel (Msg.ChatSessionSelectedMsg otherSession)).1.SelectedSession
        = otherSession
      ∧ otherSession ≠ busyModel.SelectedSession :=
  ⟨rfl, rfl, by decide⟩

/-- C10, amended. For every UI state, whether the coder agent is busy or not: handling
`chat.SessionSelectedMsg` makes the message's session the selected session; handling
`dialog.SessionSelectedMsg` leaves SelectedSession unchanged, closes the session dialog
and, on the chat page, returns the command that delivers `chat.SessionSelectedMsg` for the
chosen session (no command on another page). -/
theorem session_selected_regardless_of_busy (a : AppModel) (s : Session) :
    (Update a (Msg.ChatSessionSelectedMsg s)).1.SelectedSession = s
      ∧ (Update a (Msg.DialogSessionSelectedMsg s)).1.SelectedSession = a.SelectedSession
      ∧ (Update a (Msg.DialogSessionSelectedMsg s)).1.ShowSession = false
      ∧ (Update a (Msg.DialogSessionSelectedMsg s)).2
        = (if a.CurrentPage = PageID.ChatPage then Cmd.CmdHandler (Msg.ChatSessionSelectedMsg s)
           else Cmd.nil) := by
  refine ⟨?_, ?_, ?_, ?_⟩
  · simp only [Update, tail_SelectedSession]
  · simp only [Update]
    split_ifs <;> rfl
  · simp only [Update]
    split_ifs <;> rfl
  · simp only [Update]
    split_ifs <;> rfl

end TUI

/-! ## Theorems about the model registry -/

namespace Models

theorem mapGet_mapSet_self {κ ν : Type} [DecidableEq κ] (m : GoMap κ ν) (k : κ) (v : ν) :
    mapGet (mapSet m k v) k = some v := by
  induction m with
  | nil => simp [mapSet, mapGet]
  | cons e rest ih =>
    obtain ⟨k0, v0⟩ := e
    by_cases h : k0 = k
    · simp [mapSet, mapGet, h]
    · simp [mapSet, mapGet, h, ih]

theorem mapGet_mapSet_ne {κ ν : Type} [DecidableEq κ] (m : GoMap κ ν) (k k' : κ) (v : ν)
    (hne : k ≠ k') : mapGet (mapSet m k v) k' = mapGet m k' := by
  induction m with
  | nil => simp [mapSet, mapGet, hne]
  | cons e rest ih =>
    obtain ⟨k0, v0⟩ := e
    by_cases h : k0 = k
    · subst h
      simp [mapSet, mapGet, hne]
    · by_cases h' : k0 = k'
      · subst h'
        simp [mapSet, mapGet, h]
      · simp [mapSet, mapGet, h, h', ih]

theorem mapGet_mapsCopy_absent {κ ν : Type} [DecidableEq κ] (src : GoMap κ ν) :
    ∀ (dst : GoMap κ ν) (k : κ), (∀ e, e ∈ src → e.1 ≠ k) →
      mapGet (mapsCopy dst src) k = mapGet dst k := by
  induction src with
  | nil => intro dst k _; rfl
  | cons e rest ih =>
    intro dst k h
    show mapGet (mapsCopy (mapSet dst e.1 e.2) rest) k = mapGet dst k
    rw [ih _ k (fun x hx => h x (List.mem_cons_of_mem _ hx)),
      mapGet_mapSet_ne dst e.1 k e.2 (h e (List.mem_cons_self _ _))]

theorem mapGet_foldl_mapsCopy_absent {κ ν : Type} [DecidableEq κ] (tables : List (GoMap κ ν)) :
    ∀ (dst : GoMap κ ν) (k : κ), (∀ tb, tb ∈ tables → ∀ e, e ∈ tb → e.1 ≠ k) →
      mapGet (tables.foldl mapsCopy dst) k = mapGet dst k := by
  induction tables with
  | nil => intro dst k _; rfl
  | cons tb rest ih =>
    intro dst k h
    show mapGet (rest.foldl mapsCopy (mapsCopy dst tb)) k = mapGet dst k
    rw [ih _ k (fun x hx => h x (List.mem_cons_of_mem _ hx)),
      mapGet_mapsCopy_absent tb dst k (h tb (List.mem_cons_self _ _))]

theorem mapGet_mapsCopy_A2A (dst : GoMap ModelID Model) :
    mapGet (mapsCopy dst A2AModels) A2AGeneric
      = some { ID := A2AGeneric, Name := "A2A Generic", Provider := ProviderA2A,
               APIModel := "a2a.generic" } :=
  mapGet_mapSet_self dst A2AGeneric _

theorem init_eq (t : OtherTables) :
    init t = t.after.foldl mapsCopy (mapsCopy (t.before.foldl mapsCopy SupportedModels) A2AModels) := by
  simp only [init, List.foldl_append, List.foldl_cons]

/-- C12. The registry is keyed by identifier: every entry of `A2AModels` and of the
`SupportedModels` literal has `m.ID = k`, and the two tables share no key. So after
`maps.Copy(SupportedModels, A2AModels)` the lookup of "a2a.generic" yields the descriptor
named "A2A Generic" with Provider "a2a", and the Bedrock entry is the one of the literal.
The same holds after the whole of `init`, for all contents of the thirteen other tables
in which no table copied after `A2AModels` has the key "a2a.generic" and no table has the
Bedrock key. -/
theorem registry_keyed_by_identifier (t : OtherTables)
    (hA : ∀ tb, tb ∈ t.after → ∀ e, e ∈ tb → e.1 ≠ A2AGeneric)
    (hB : ∀ tb, tb ∈ t.before ++ t.after → ∀ e, e ∈ tb → e.1 ≠ BedrockClaude37Sonnet) :
    (∀ e, e ∈ A2AModels → e.2.ID = e.1)
      ∧ (∀ e, e ∈ SupportedModels → e.2.ID = e.1)
      ∧ (∀ e1 e2, e1 ∈ A2AModels → e2 ∈ SupportedModels → e1.1 ≠ e2.1)
      ∧ (∃ m, mapGet (mapsCopy SupportedModels A2AModels) "a2a.generic" = some m
          ∧ m.Name = "A2A Generic" ∧ m.Provider = "a2a" ∧ m.ID = "a2a.generic")
      ∧ mapGet (mapsCopy SupportedModels A2AModels) BedrockClaude37Sonnet
          = mapGet SupportedModels BedrockClaude37Sonnet
      ∧ (∃ m, mapGet SupportedModels BedrockClaude37Sonnet = some m
          ∧ m.Name = "Bedrock: Claude 3.7 Sonnet" ∧ m.Provider = "bedrock"
          ∧ m.ID = "bedrock.claude-3.7-sonnet")
      ∧ (∃ m, mapGet (init t) "a2a.generic" = some m
          ∧ m.Name = "A2A Generic" ∧ m.Provider = "a2a" ∧ m.ID = "a2a.generic")
      ∧ mapGet (init t) BedrockClaude37Sonnet
          = mapGet SupportedModels BedrockClaude37Sonnet := by
  have hne : ∀ e, e ∈ A2AModels → e.1 ≠ BedrockClaude37Sonnet := by
    intro e he
    simp only [A2AModels, List.mem_singleton] at he
    subst he
    decide
  refine ⟨?_, ?_, ?_, ⟨_, mapGet_mapsCopy_A2A SupportedModels, rfl, rfl, rfl⟩,
    mapGet_mapsCopy_absent A2AModels SupportedModels _ hne, ⟨_, rfl, rfl, rfl, rfl⟩, ?_, ?_⟩
  · intro e he
    simp only [A2AModels, List.mem_singleton] at he
    subst he
    rfl
  · intro e he
    simp only [SupportedModels, List.mem_singleton] at he
    subst he
    rfl
  · intro e1 e2 h1 h2
    simp only [A2AModels, List.mem_singleton] at h1
    simp only [SupportedModels, List.mem_singleton] at h2
    subst h1
    subst h2
    decide
  · have hget : mapGet (init t) A2AGeneric
        = mapGet (mapsCopy (t.before.foldl mapsCopy SupportedModels) A2AModels) A2AGeneric := by
      rw [init_eq, mapGet_foldl_mapsCopy_absent t.after _ _ hA]
    exact ⟨_, hget.trans (mapGet_mapsCopy_A2A _), rfl, rfl, rfl⟩
  · rw [init_eq, mapGet_foldl_mapsCopy_absent t.after _ _
        (fun tb htb => hB tb (List.mem_append_right _ htb)),
      mapGet_mapsCopy_absent A2AModels _ _ hne,
      mapGet_foldl_mapsCopy_absent t.before _ _
        (fun tb htb => hB tb (List.mem_append_left _ htb))]

/-- Witness for C12: the registry built from the example tables. -/
theorem registry_keyed_by_identifier_witness :
    (∃ m, mapGet (init exampleTables) "a2a.generic" = some m
        ∧ m.Name = "A2A Generic" ∧ m.Provider = "a2a" ∧ m.ID = "a2a.generic")
      ∧ mapGet (init exampleTables) BedrockClaude37Sonnet
          = mapGet SupportedModels BedrockClaude37Sonnet :=
  (registry_keyed_by_identifier exampleTables (by decide) (by decide)).2.2.2.2.2.2

/-- C15. The provider-popularity ranking is strict: the fourteen entries of
`ProviderPopularity` carry, in source order, exactly the ranks 1 through 14, so no rank
occurs twice and two entries with the same rank are the same entry; Ollama has rank 1 and
A2A rank 11. (The eight provider constants declared elsewhere may have any values.) -/
theorem provider_popularity_strict (k : ProviderConsts) :
    (ProviderPopularity k).map Prod.snd = [1, 2, 3, 4, 5, 6, 7, 8, 9, 10, 11, 12, 13, 14]
      ∧ ((ProviderPopularity k).map Prod.snd).Nodup
      ∧ (∀ e1 e2, e1 ∈ ProviderPopularity k → e2 ∈ ProviderPopularity k →
          e1.2 = e2.2 → e1 = e2)
      ∧ (∀ r : Int, r ∈ (ProviderPopularity k).map Prod.snd ↔ 1 ≤ r ∧ r ≤ 14)
      ∧ (ProviderPopularity k).length = 14
      ∧ mapGet (ProviderPopularity k) ProviderOllama = some 1
      ∧ ("ollama", 1) ∈ ProviderPopularity k
      ∧ ("a2a", 11) ∈ ProviderPopularity k := by
  have hranks : (ProviderPopularity k).map Prod.snd
      = [1, 2, 3, 4, 5, 6, 7, 8, 9, 10, 11, 12, 13, 14] := rfl
  have hnodup : ((ProviderPopularity k).map Prod.snd).Nodup := by
    rw [hranks]
    decide
  refine ⟨hranks, hnodup, ?_, ?_, rfl, ?_, ?_, ?_⟩
  · intro e1 e2 h1 h2 h
    exact List.inj_on_of_nodup_map hnodup h1 h2 h
  · intro r
    rw [hranks]
    simp only [List.mem_cons, List.mem_singleton, List.not_mem_nil, or_false]
    omega
  · simp [ProviderPopularity, mapGet]
  · simp [ProviderPopularity, ProviderOllama]
  · simp [ProviderPopularity, ProviderA2A]

end Models

/-! ## Further theorems about `events.go` -/

namespace TUI

open A2A (GoError CtxError)

theorem dialogBlock_keepsFields (a : AppModel) (shown : Bool) (d : Component) (msg : Msg)
    (r : Except (AppModel × Cmd) (AppModel × List Cmd)) (h : keepsFields a r) :
    keepsFields a (r >>= dialogBlock shown d msg) := by
  cases r with
  | error x => exact h
  | ok x =>
    show keepsFields a (dialogBlock shown d msg x)
    obtain ⟨eff, hx⟩ := h
    unfold dialogBlock
    cases shown <;> cases msg.isKeyMsg <;>
      first
        | exact ⟨eff, hx⟩
        | exact ⟨_, by simp only [hx]; rfl⟩

theorem tail_keepsFields (a : AppModel) (msg : Msg) (cmds : List Cmd) :
    ∃ eff, (Update.tail a msg cmds).1 = { a with effects := eff } := by
  have h0 : keepsFields a (dialogBlock a.ShowFilepicker Component.Filepicker msg (a, cmds)) :=
    dialogBlock_keepsFields a a.ShowFilepicker Component.Filepicker msg (Except.ok (a, cmds))
      ⟨a.effects, rfl⟩
  have h8 := dialogBlock_keepsFields a a.ShowTheme Component.Theme msg _
    (dialogBlock_keepsFields a a.ShowInit Component.Init msg _
    (dialogBlock_keepsFields a a.ShowModel Component.Model msg _
    (dialogBlock_keepsFields a a.ShowCommand Component.Command msg _
    (dialogBlock_keepsFields a a.ShowSession Component.Session msg _
    (dialogBlock_keepsFields a a.ShowPermissions Component.Permissions msg _
    (dialogBlock_keepsFields a a.ShowQuit Component.Quit msg _ h0))))))
  unfold Update.tail
  simp only []
  generalize (dialogBlock a.ShowFilepicker Component.Filepicker msg (a, cmds)
      >>= dialogBlock a.ShowQuit Component.Quit msg
      >>= dialogBlock a.ShowPermissions Component.Permissions msg
      >>= dialogBlock a.ShowSession Component.Session msg
      >>= dialogBlock a.ShowCommand Component.Command msg
      >>= dialogBlock a.ShowModel Component.Model msg
      >>= dialogBlock a.ShowInit Component.Init msg
      >>= dialogBlock a.ShowTheme Component.Theme msg) = run at h8 ⊢
  cases run with
  | error x => exact h8
  | ok x =>
    obtain ⟨eff, hx⟩ := h8
    exact ⟨_, by simp only [hx]; rfl⟩

/-- A key message is handled by `case tea.Msg`: apart from the record of effects, the state
stays as it was, whatever the key. -/
theorem Update_KeyMsg_keepsFields (a : AppModel) (key : String) :
    ∃ eff, (Update a (Msg.KeyMsg key)).1 = { a with effects := eff } :=
  tail_keepsFields a (Msg.KeyMsg key) []

/-- C11, counterexample. The permission dialog is open and no call has been made on the
permission broker; the permission response message carries the zero value of
`dialog.PermissionAction`, which is none of the three constants. After `Update` the record
of broker calls is still empty (no `Grant`, no `GrantPersistant`, no `Deny`), the dialog is
closed and no command is returned. -/
theorem permission_response_unknown_action_counterexample :
    ({ busyModel with ShowPermissions := true } : AppModel).effects = []
      ∧ (Update { busyModel with ShowPermissions := true }
          (Msg.PermissionResponseMsg examplePermission (PermissionAction.other ""))).1.effects
        = []
      ∧ Update { busyModel with ShowPermissions := true }
          (Msg.PermissionResponseMsg examplePermission (PermissionAction.other ""))
        = ({ busyModel with ShowPermissions := false }, Cmd.nil) :=
  ⟨rfl, rfl, rfl⟩

/-- C11, amended. For every permission response message `Update` appends to the record of
broker calls exactly one call, with the message's permission, when the action is one of the
three constants (`Grant` for Allow, `GrantPersistant` for AllowForSession, `Deny` for Deny)
and no call when the action is any other value; in every case ShowPermissions is false
afterwards, nothing else has changed and no command is returned. -/
theorem permission_response_operations (a : AppModel) (p : PermissionRequest)
    (act : PermissionAction) :
    Update a (Msg.PermissionResponseMsg p act)
        = ({ a with
              ShowPermissions := false,
              effects := a.effects ++
                (match act with
                 | PermissionAction.PermissionAllow => [Effect.Grant p]
                 | PermissionAction.PermissionAllowForSession => [Effect.GrantPersistant p]
                 | PermissionAction.PermissionDeny => [Effect.Deny p]
                 | PermissionAction.other _ => []) }, Cmd.nil)
      ∧ (Update a (Msg.PermissionResponseMsg p act)).1.ShowPermissions = false := by
  cases act with
  | PermissionAllow => exact ⟨rfl, rfl⟩
  | PermissionAllowForSession => exact ⟨rfl, rfl⟩
  | PermissionDeny => exact ⟨rfl, rfl⟩
  | other v =>
    refine ⟨?_, rfl⟩
    simp only [Update, Update.permissionResponse, List.append_nil]

/-- C13. For every UI state: after `Update` handles an agent event that carries an error, or
a done event of kind summarize, IsCompacting is false; an event with no error that is not
done leaves IsCompacting unchanged and sets CompactingMessage to the event's progress
text. -/
theorem agent_event_compacting_flag (a : AppModel) (ev : Event AgentEvent) :
    ((ev.Payload.Error ≠ none
        ∨ (ev.Payload.Done = true
            ∧ ev.Payload.Type_ = AgentEventType.AgentEventTypeSummarize)) →
        (Update a (Msg.AgentEvent ev)).1.IsCompacting = false)
      ∧ (ev.Payload.Error = none → ev.Payload.Done = false →
        (Update a (Msg.AgentEvent ev)).1.IsCompacting = a.IsCompacting
        ∧ (Update a (Msg.AgentEvent ev)).1.CompactingMessage = ev.Payload.Progress) := by
  constructor
  · intro h
    cases herr : ev.Payload.Error with
    | some err => simp only [Update, Update.agentEvent, herr]
    | none =>
      rcases h with h | ⟨hdone, htype⟩
      · exact absurd herr h
      · simp only [Update, Update.agentEvent, herr, hdone, htype, and_self, if_true]
  · intro herr hdone
    simp only [Update, Update.agentEvent, herr, hdone, Bool.false_eq_true, false_and,
      if_false, and_self]

/-- Witness for C13: in a state that is compacting, a done summarize event clears the flag,
and a progress event keeps it and stores its text. -/
theorem agent_event_compacting_flag_witness :
    (Update busyModel (Msg.AgentEvent
        { Type_ := EventType.CreatedEvent,
          Payload := { Type_ := AgentEventType.AgentEventTypeSummarize, Error := none,
                       Progress := "", Done := true } })).1.IsCompacting = false
      ∧ ((Update busyModel (Msg.AgentEvent
          { Type_ := EventType.CreatedEvent,
            Payload := { Type_ := AgentEventType.AgentEventTypeSummarize, Error := none,
                         Progress := "Analyzing...", Done := false } })).1.IsCompacting
          = busyModel.IsCompacting
        ∧ (Update busyModel (Msg.AgentEvent
          { Type_ := EventType.CreatedEvent,
            Payload := { Type_ := AgentEventType.AgentEventTypeSummarize, Error := none,
                         Progress := "Analyzing...", Done := false } })).1.CompactingMessage
          = "Analyzing...") :=
  ⟨(agent_event_compacting_flag busyModel _).1 (Or.inr ⟨rfl, rfl⟩),
   (agent_event_compacting_flag busyModel _).2 rfl rfl⟩

/-- C16. For every UI state, a session event makes its payload the selected session if the
event type is Updated and the payload's ID equals the ID of the session selected so far;
every other session event leaves SelectedSession unchanged. -/
theorem session_event_selected_session (a : AppModel) (ev : Event Session) :
    (Update a (Msg.SessionEvent ev)).1.SelectedSession
      = (if ev.Type_ = EventType.UpdatedEvent ∧ ev.Payload.ID = a.SelectedSession.ID
         then ev.Payload else a.SelectedSession) := by
  simp only [Update, tail_SelectedSession, Update.sessionEvent]
  split_ifs <;> rfl

/-- C18, the code at the failing input. The multi-arguments dialog is closed, the quit
dialog is closed and the help, session, command and model dialogs are open; the key
"ctrl+c" matches `keys.Quit`. `Update` leaves ShowQuit false and the four dialogs open,
because the key message is taken by `case tea.Msg`; the branch for `keys.Quit`, had it been
reached, would have set ShowQuit and closed the four dialogs. -/
theorem quit_key_taken_by_catch_all :
    dialogsOpenModel.ShowMultiArguments = false ∧ dialogsOpenModel.ShowQuit = false
      ∧ keyMatches "ctrl+c" keysQuit = true
      ∧ (Update dialogsOpenModel (Msg.KeyMsg "ctrl+c")).1.ShowQuit = false
      ∧ (Update dialogsOpenModel (Msg.KeyMsg "ctrl+c")).1.ShowHelp = true
      ∧ (Update dialogsOpenModel (Msg.KeyMsg "ctrl+c")).1.ShowSession = true
      ∧ (Update dialogsOpenModel (Msg.KeyMsg "ctrl+c")).1.ShowCommand = true
      ∧ (Update dialogsOpenModel (Msg.KeyMsg "ctrl+c")).1.ShowModel = true
      ∧ (Update.keyQuit dialogsOpenModel).1.ShowQuit = true
      ∧ (Update.keyQuit dialogsOpenModel).1.ShowHelp = false
      ∧ (Update.keyQuit dialogsOpenModel).1.ShowSession = false
      ∧ (Update.keyQuit dialogsOpenModel).1.ShowCommand = false
      ∧ (Update.keyQuit dialogsOpenModel).1.ShowModel = false :=
  ⟨rfl, rfl, by decide, rfl, rfl, rfl, rfl, rfl, rfl, rfl, rfl, rfl, rfl⟩

/-- C19, the code at the failing input. The submitted content is "$ARG1" and the arguments
are ARG = "x" and ARG1 = "y". When the iteration visits ARG first the content produced is
"x1"; when it visits ARG1 first the content produced is "y". -/
theorem multi_arguments_order_dependent :
    (Update busyModel (Msg.CloseMultiArgumentsDialogMsg true "$ARG1"
        [("ARG", "x"), ("ARG1", "y")])).2
      = Cmd.CmdHandler (Msg.CommandRunCustomMsg "x1" [("ARG", "x"), ("ARG1", "y")])
    ∧ (Update busyModel (Msg.CloseMultiArgumentsDialogMsg true "$ARG1"
        [("ARG1", "y"), ("ARG", "x")])).2
      = Cmd.CmdHandler (Msg.CommandRunCustomMsg "y" [("ARG1", "y"), ("ARG", "x")])
    ∧ replaceArgs "$ARG1" [("ARG", "x"), ("ARG1", "y")]
      ≠ replaceArgs "$ARG1" [("ARG1", "y"), ("ARG", "x")] :=
  ⟨rfl, rfl, by decide⟩

/-- C20. When the active model is `a2a.generic` (its descriptor sets no ContextWindow, so it
is 0), auto-compaction is on and a session is selected, every done response event (an agent
event of the done variant, which carries no error, of kind response) makes `Update` return
the command that delivers `startCompactSessionMsg`, whatever non-negative token count (the
`int64` sum) the session has, 0 included. -/
theorem a2a_generic_always_compacts (a : AppModel) (ev : Event AgentEvent) (m : Models.Model)
    (hm : Models.mapGet Models.A2AModels Models.A2AGeneric = some m)
    (hcw : a.App.ContextWindow = m.ContextWindow)
    (hauto : a.App.AutoCompact = true) (hsel : a.SelectedSession.ID ≠ "")
    (herr : ev.Payload.Error = none) (hdone : ev.Payload.Done = true)
    (htype : ev.Payload.Type_ = AgentEventType.AgentEventTypeResponse)
    (htok : 0 ≤ a.tokens) :
    Update a (Msg.AgentEvent ev)
      = ({ a with CompactingMessage := ev.Payload.Progress },
          Cmd.CmdHandler Msg.startCompactSessionMsg) := by
  have hm0 : m.ContextWindow = 0 := by
    simp only [Models.mapGet, Models.A2AModels, if_true, Option.some.injEq] at hm
    rw [← hm]
  have hthr : threshold95 a.App.ContextWindow
      ≤ AppModel.tokens { a with CompactingMessage := ev.Payload.Progress } := by
    rw [hcw, hm0]
    exact htok
  have hns : ¬ (AgentEventType.AgentEventTypeResponse
      = AgentEventType.AgentEventTypeSummarize) := by decide
  simp only [Update, Update.agentEvent, herr, hdone, htype, hns, and_false, if_false,
    true_and, ne_eq, hsel, not_false_eq_true, if_true, hthr, hauto, and_self]

/-- Witness for C20: a session that has used no tokens at all. -/
theorem a2a_generic_always_compacts_witness :
    Update a2aModel (Msg.AgentEvent
        { Type_ := EventType.CreatedEvent,
          Payload := { Type_ := AgentEventType.AgentEventTypeResponse, Error := none,
                       Progress := "", Done := true } })
      = ({ a2aModel with CompactingMessage := "" },
          Cmd.CmdHandler Msg.startCompactSessionMsg) :=
  a2a_generic_always_compacts a2aModel _ _ rfl rfl rfl (by decide) rfl rfl rfl (by decide)

end TUI

/-! ## Theorems about `moveToPage` and the start of a compaction -/

namespace TUI

open A2A (GoError CtxError)

theorem mem_mapSet {κ ν : Type} [DecidableEq κ] (m : Models.GoMap κ ν) (k : κ) (v : ν)
    (e : κ × ν) (h : e ∈ Models.mapSet m k v) : e ∈ m ∨ e = (k, v) := by
  induction m with
  | nil =>
    simp only [Models.mapSet, List.mem_singleton] at h
    exact Or.inr h
  | cons x rest ih =>
    obtain ⟨k0, v0⟩ := x
    by_cases hk : k0 = k
    · subst hk
      simp only [Models.mapSet, if_true, List.mem_cons] at h
      rcases h with h | h
      · exact Or.inr h
      · exact Or.inl (List.mem_cons_of_mem _ h)
    · simp only [Models.mapSet, hk, if_false, List.mem_cons] at h
      rcases h with h | h
      · exact Or.inl (by rw [h]; exact List.mem_cons_self _ _)
      · rcases ih h with h' | h'
        · exact Or.inl (List.mem_cons_of_mem _ h')
        · exact Or.inr h'

theorem mem_of_mapGet {κ ν : Type} [DecidableEq κ] (m : Models.GoMap κ ν) (k : κ) (v : ν)
    (h : Models.mapGet m k = some v) : (k, v) ∈ m := by
  induction m with
  | nil => simp [Models.mapGet] at h
  | cons x rest ih =>
    obtain ⟨k0, v0⟩ := x
    by_cases hk : k0 = k
    · subst hk
      simp only [Models.mapGet, if_true, Option.some.injEq] at h
      subst h
      exact List.mem_cons_self _ _
    · simp only [Models.mapGet, hk, if_false] at h
      exact List.mem_cons_of_mem _ (ih h)

theorem moveToPage_LoadedPages (a : AppModel) (pageID : PageID)
    (hidle : a.App.CoderAgentIsBusy = false) :
    (moveToPage a pageID).1.LoadedPages
      = (match Models.mapGet a.LoadedPages pageID with
         | none => Models.mapSet a.LoadedPages pageID true
         | some _ => a.LoadedPages) := by
  unfold moveToPage
  simp only [hidle, Bool.false_eq_true, if_false]
  cases hget : Models.mapGet a.LoadedPages pageID <;> cases hs : a.PagesSizeable pageID <;>
    simp [hs]

theorem moveToPage_loadedOnlyTrue (a : AppModel) (pageID : PageID) (h : loadedOnlyTrue a) :
    loadedOnlyTrue (moveToPage a pageID).1 := by
  cases hbusy : a.App.CoderAgentIsBusy with
  | true =>
    have : moveToPage a pageID = (a, Cmd.ReportWarn "Agent is busy, please wait...") := by
      simp [moveToPage, hbusy]
    rw [this]
    exact h
  | false =>
    intro e he
    rw [moveToPage_LoadedPages a pageID hbusy] at he
    cases hget : Models.mapGet a.LoadedPages pageID with
    | none =>
      rw [hget] at he
      rcases mem_mapSet _ _ _ _ he with h1 | h1
      · exact h e h1
      · rw [h1]
    | some b =>
      rw [hget] at he
      exact h e he

theorem tail_LoadedPages (a : AppModel) (msg : Msg) (cmds : List Cmd) :
    (Update.tail a msg cmds).1.LoadedPages = a.LoadedPages := by
  obtain ⟨eff, h⟩ := tail_keepsFields a msg cmds
  rw [h]

theorem Update_loadedOnlyTrue (a : AppModel) (msg : Msg) (h : loadedOnlyTrue a) :
    loadedOnlyTrue (Update a msg).1 := by
  have keep : (Update a msg).1.LoadedPages = a.LoadedPages → loadedOnlyTrue (Update a msg).1 := by
    intro hk e he
    rw [hk] at he
    exact h e he
  cases msg with
  | PageChangeMsg id => exact moveToPage_loadedOnlyTrue a id h
  | PermissionResponseMsg p act => exact keep (by cases act <;> rfl)
  | startCompactSessionMsg =>
    exact keep (by simp only [Update, Update.startCompact]; split_ifs <;> rfl)
  | AgentEvent e =>
    apply keep
    simp only [Update, Update.agentEvent]
    split
    · rfl
    · split_ifs <;> rfl
  | ChatSessionSelectedMsg s => exact keep (by simp only [Update, tail_LoadedPages])
  | SessionEvent e =>
    apply keep
    simp only [Update, tail_LoadedPages, Update.sessionEvent]
    split_ifs <;> rfl
  | DialogSessionSelectedMsg s =>
    exact keep (by simp only [Update]; split_ifs <;> rfl)
  | CloseMultiArgumentsDialogMsg submit content args =>
    exact keep (by simp only [Update, Update.closeMultiArguments]; split_ifs <;> rfl)
  | CommandRunCustomMsg content args =>
    exact keep (by simp only [Update, Update.teaMsg, tail_LoadedPages])
  | KeyMsg key => exact keep (by simp only [Update, Update.teaMsg, tail_LoadedPages])

/-- In every state the program reaches, the map `LoadedPages` holds the value `true` only:
it starts empty and `moveToPage`, which stores `true`, is its only writer. -/
theorem Reachable_loadedOnlyTrue (a : AppModel) (h : Reachable a) : loadedOnlyTrue a := by
  induction h with
  | start app sizeable => intro e he; simp [New] at he
  | update a msg _ ih => exact Update_loadedOnlyTrue a msg ih
  | world a app _ ih => exact ih

/-- C21. While the coder agent is busy, `moveToPage` leaves the state as it is (CurrentPage,
PreviousPage and LoadedPages included) and returns the warning "Agent is busy, please
wait...". While it is not busy, PreviousPage becomes the old CurrentPage, CurrentPage the
requested page, and the requested page is a key of LoadedPages afterwards: with the value
`true` if it was not a key before, with its old value otherwise (so with `true` whenever
the map held `true` only, as it does in every state the program reaches); no other key
changes; the page's `Init` is called exactly when the page was not a key of LoadedPages
before, followed by `SetSize` if the page is sizeable. -/
theorem moveToPage_spec (a : AppModel) (pageID : PageID) :
    (a.App.CoderAgentIsBusy = true →
        moveToPage a pageID = (a, Cmd.ReportWarn "Agent is busy, please wait..."))
      ∧ (a.App.CoderAgentIsBusy = false →
        (moveToPage a pageID).1.PreviousPage = a.CurrentPage
        ∧ (moveToPage a pageID).1.CurrentPage = pageID
        ∧ Models.mapGet (moveToPage a pageID).1.LoadedPages pageID
            = some ((Models.mapGet a.LoadedPages pageID).getD true)
        ∧ (∀ q, q ≠ pageID →
            Models.mapGet (moveToPage a pageID).1.LoadedPages q = Models.mapGet a.LoadedPages q)
        ∧ (loadedOnlyTrue a →
            Models.mapGet (moveToPage a pageID).1.LoadedPages pageID = some true
            ∧ loadedOnlyTrue (moveToPage a pageID).1)
        ∧ (moveToPage a pageID).1.effects
            = a.effects
              ++ (if Models.mapGet a.LoadedPages pageID = none
                  then [Effect.Init (Component.Page pageID)] else [])
              ++ (if a.PagesSizeable pageID = true
                  then [Effect.SetSize (Component.Page pageID) a.Width a.Height] else []))
      ∧ (Reachable a → loadedOnlyTrue a) := by
  refine ⟨?_, ?_, Reachable_loadedOnlyTrue a⟩
  · intro hbusy
    simp [moveToPage, hbusy]
  · intro hidle
    have hL := moveToPage_LoadedPages a pageID hidle
    have hget : Models.mapGet (moveToPage a pageID).1.LoadedPages pageID
        = some ((Models.mapGet a.LoadedPages pageID).getD true) := by
      rw [hL]
      cases hg : Models.mapGet a.LoadedPages pageID with
      | none => exact Models.mapGet_mapSet_self _ _ _
      | some b => simpa using hg
    refine ⟨?_, ?_, hget, ?_, ?_, ?_⟩
    · unfold moveToPage
      simp only [hidle, Bool.false_eq_true, if_false]
      cases hg : Models.mapGet a.LoadedPages pageID <;> cases hs : a.PagesSizeable pageID <;>
        simp [hs]
    · unfold moveToPage
      simp only [hidle, Bool.false_eq_true, if_false]
      cases hg : Models.mapGet a.LoadedPages pageID <;> cases hs : a.PagesSizeable pageID <;>
        simp [hs]
    · intro q hq
      rw [hL]
      cases hg : Models.mapGet a.LoadedPages pageID with
      | none => exact Models.mapGet_mapSet_ne _ _ _ _ (fun h => hq h.symm)
      | some b => rfl
    · intro hinv
      refine ⟨?_, moveToPage_loadedOnlyTrue a pageID hinv⟩
      rw [hget]
      cases hg : Models.mapGet a.LoadedPages pageID with
      | none => rfl
      | some b =>
        have hb : b = true := hinv _ (mem_of_mapGet _ _ _ hg)
        simp [hb]
    · unfold moveToPage
      simp only [hidle, Bool.false_eq_true, if_false]
      cases hg : Models.mapGet a.LoadedPages pageID <;> cases hs : a.PagesSizeable pageID <;>
        simp [hs]

/-- Witness for C21: a move to the logs page is refused while the agent is busy; once it is
idle the logs page becomes current, the chat page previous, and the logs page is loaded. -/
theorem moveToPage_spec_witness :
    moveToPage busyModel PageID.LogsPage
        = (busyModel, Cmd.ReportWarn "Agent is busy, please wait...")
      ∧ (moveToPage idleModel PageID.LogsPage).1.PreviousPage = PageID.ChatPage
      ∧ (moveToPage idleModel PageID.LogsPage).1.CurrentPage = PageID.LogsPage
      ∧ Models.mapGet (moveToPage idleModel PageID.LogsPage).1.LoadedPages PageID.LogsPage
          = some true :=
  ⟨(moveToPage_spec busyModel PageID.LogsPage).1 rfl,
   ((moveToPage_spec idleModel PageID.LogsPage).2.1 rfl).1,
   ((moveToPage_spec idleModel PageID.LogsPage).2.1 rfl).2.1,
   (((moveToPage_spec idleModel PageID.LogsPage).2.1 rfl).2.2.2.2.1
      (fun e he => by
        simp only [idleModel, busyModel, List.mem_singleton] at he
        rw [he])).1⟩

/-- C22. When `Update` handles the start-compaction message with no selected session
(SelectedSession.ID empty), IsCompacting is false afterwards, the warning "No active
session to summarize" is returned, and that command never calls `Summarize`. With a
selected session, IsCompacting is true, CompactingMessage is "Starting summarization..."
and the returned command, run in the state `Update` returned or in any later state where
the same session is still selected, calls `Summarize` exactly once, with that session's
ID. (The command reads the ID when it runs: in any state `r` it calls `Summarize` with
the ID of the session selected in `r`.) -/
theorem start_compaction_spec (a : AppModel) :
    (a.SelectedSession.ID = "" →
        Update a Msg.startCompactSessionMsg
          = ({ a with IsCompacting := false, CompactingMessage := "Starting summarization..." },
              Cmd.ReportWarn "No active session to summarize")
        ∧ (Update a Msg.startCompactSessionMsg).1.IsCompacting = false
        ∧ ∀ r, (Update a Msg.startCompactSessionMsg).2.summarizeCalls r = [])
      ∧ (a.SelectedSession.ID ≠ "" →
        (Update a Msg.startCompactSessionMsg).1
          = { a with IsCompacting := true, CompactingMessage := "Starting summarization..." }
        ∧ (Update a Msg.startCompactSessionMsg).1.IsCompacting = true
        ∧ (Update a Msg.startCompactSessionMsg).1.CompactingMessage
            = "Starting summarization..."
        ∧ (Update a Msg.startCompactSessionMsg).2.summarizeCalls
            (Update a Msg.startCompactSessionMsg).1 = [a.SelectedSession.ID]
        ∧ (∀ r, r.SelectedSession.ID = a.SelectedSession.ID →
            (Update a Msg.startCompactSessionMsg).2.summarizeCalls r = [a.SelectedSession.ID])
        ∧ ∀ r, (Update a Msg.startCompactSessionMsg).2.summarizeCalls r
            = [r.SelectedSession.ID]) := by
  constructor
  · intro hno
    have hrun : Update a Msg.startCompactSessionMsg
        = ({ a with IsCompacting := false, CompactingMessage := "Starting summarization..." },
            Cmd.ReportWarn "No active session to summarize") := by
      simp only [Update, Update.startCompact, hno, if_true]
    refine ⟨hrun, by rw [hrun], ?_⟩
    intro r
    rw [hrun]
    simp [Cmd.summarizeCalls]
  · intro hsel
    have hrun : Update a Msg.startCompactSessionMsg
        = ({ a with IsCompacting := true, CompactingMessage := "Starting summarization..." },
            Cmd.SummarizeSelected) := by
      simp only [Update, Update.startCompact, hsel, if_false]
    refine ⟨by rw [hrun], by rw [hrun], by rw [hrun], ?_, ?_, ?_⟩
    · rw [hrun]
      simp [Cmd.summarizeCalls]
    · intro r hr
      rw [hrun]
      simp [Cmd.summarizeCalls, hr]
    · intro r
      rw [hrun]
      simp [Cmd.summarizeCalls]

/-- Witness for C22: with session "s1" selected the command calls `Summarize` with "s1";
in the state built by `New`, where no session is selected, the warning is returned. -/
theorem start_compaction_spec_witness :
    ((Update idleModel Msg.startCompactSessionMsg).2.summarizeCalls
        (Update idleModel Msg.startCompactSessionMsg).1 = ["s1"]
      ∧ (Update idleModel Msg.startCompactSessionMsg).1.IsCompacting = true)
    ∧ Update (New idleModel.App (fun _ => true)) Msg.startCompactSessionMsg
      = ({ New idleModel.App (fun _ => true) with
            IsCompacting := false, CompactingMessage := "Starting summarization..." },
          Cmd.ReportWarn "No active session to summarize") :=
  ⟨⟨((start_compaction_spec idleModel).2 (by decide)).2.2.2.1,
    ((start_compaction_spec idleModel).2 (by decide)).2.1⟩,
   ((start_compaction_spec (New idleModel.App (fun _ => true))).1 rfl).1⟩

end TUI
